import Mathlib

/-!
Shallow embedding of the vimscript runtime of this repository
(src/vimscript/src: namespace.rs, value.rs, expr.rs, lib.rs, builtin.rs),
together with proofs settling the claims about it.

Modelling conventions, used throughout:
* Rust `isize` is modelled as `Int`, `usize` as `Nat` (arithmetic overflow is
  out of scope for every claim checked here); `f64` is modelled as `Rat`
  (no claim depends on NaN/infinity/rounding behaviour).
* Rust `HashMap<String, T>` is modelled as an association list with
  replace-on-insert semantics; `HashMap` iteration order is unspecified in
  Rust, the association list fixes one order.
* Rust panics (`todo!`, `unreachable!`, out-of-bounds `Vec` ops,
  `expect`) are modelled as the distinguished fault `VimErr.panicked`.
* The wall-clock timeout of `VimScriptCtx::run` is modelled by a fuel
  parameter; exhausted fuel is `VimErr.timeOut`.
* `Arc<Mutex<...>>` shared handles inside `Value` are modelled by direct
  containment (pure trees); no claim checked here mutates through an alias.
-/

namespace VimLean

/-- Association-list lookup, modelling `HashMap::get`. -/
def alGet {T : Type} (m : List (String × T)) (k : String) : Option T :=
  (m.find? (fun p => decide (p.1 = k))).map (fun p => p.2)

/-- Association-list insert, modelling `HashMap::insert`: replaces an existing
binding and returns the previous value. -/
def alInsert {T : Type} : List (String × T) → String → T → List (String × T) × Option T
  | [], k, v => ([(k, v)], none)
  | (k₂, v₂) :: rest, k, v =>
    if k₂ = k then ((k, v) :: rest, some v₂)
    else
      let (m, old) := alInsert rest k v
      ((k₂, v₂) :: m, old)

/-- Association-list removal, modelling `HashMap::remove`. -/
def alRemove {T : Type} : List (String × T) → String → List (String × T) × Option T
  | [], _ => ([], none)
  | (k₂, v₂) :: rest, k =>
    if k₂ = k then (rest, some v₂)
    else
      let (m, old) := alRemove rest k
      ((k₂, v₂) :: m, old)

/-- Lookup in an id-keyed map of scope stores, modelling
`HashMap<Id, HashMap<String, T>>::get`. -/
def idGet {T : Type} (m : List (Nat × List (String × T))) (id : Nat) :
    Option (List (String × T)) :=
  (m.find? (fun p => decide (p.1 = id))).map (fun p => p.2)

/-- `map.entry(id).or_default()` followed by an insert of `(k, v)`:
inserts into the store of `id`, creating an empty store first if absent.
Returns the previous value bound to `k` there. -/
def idEntryInsert {T : Type} :
    List (Nat × List (String × T)) → Nat → String → T →
      List (Nat × List (String × T)) × Option T
  | [], id, k, v => ([(id, [(k, v)])], none)
  | (i, s) :: rest, id, k, v =>
    if i = id then
      let (s₂, old) := alInsert s k v
      ((i, s₂) :: rest, old)
    else
      let (m, old) := idEntryInsert rest id k v
      ((i, s) :: m, old)

/-- `map.entry(id).or_default()` followed by a removal of `k`. -/
def idEntryRemove {T : Type} :
    List (Nat × List (String × T)) → Nat → String →
      List (Nat × List (String × T)) × Option T
  | [], id, _ => ([(id, [])], none)
  | (i, s) :: rest, id, k =>
    if i = id then
      let (s₂, old) := alRemove s k
      ((i, s₂) :: rest, old)
    else
      let (m, old) := idEntryRemove rest id k
      ((i, s) :: m, old)

/-- The six variable scopes (namespace.rs, `enum Namespace`). -/
inductive Namespace where
  | global
  | buffer
  | window
  | script
  | localNs
  | builtin
deriving DecidableEq, Repr

/-- namespace.rs `enum NamespaceError`. -/
inductive NamespaceError where
  | namespaceNotDefined (ns : Namespace)
  | unknownNamespace (c : Char)
deriving DecidableEq, Repr

/-- `s.starts_with("x:")` for a sigil character `x`. -/
def hasSigil (s : String) (c : Char) : Bool :=
  match s.toList with
  | a :: b :: _ => a = c ∧ b = ':'
  | _ => false

/-- namespace.rs `Namespace::from_name`: sigil-prefix dispatch, then an
unknown-sigil error for any other name containing a colon, then uppercase
first letter selects Global, else Local. -/
def Namespace.from_name (s : String) : Except NamespaceError Namespace :=
  if hasSigil s 'g' then .ok .global
  else if hasSigil s 'b' then .ok .buffer
  else if hasSigil s 'w' then .ok .window
  else if hasSigil s 's' then .ok .script
  else if hasSigil s 'v' then .ok .builtin
  else if s.toList.contains ':' then .error (.unknownNamespace (s.toList.headD '!'))
  else if (match s.toList with | c :: _ => c.isUpper | [] => false) then .ok .global
  else .ok .localNs

/-- namespace.rs `struct NameSpaced<T>`. The Rust field `local` (a stack of
frames, pushed/popped at the end of the `Vec`) is named `locals` here and
kept innermost-first: `enter_local` conses a fresh frame at the head. -/
structure NameSpaced (T : Type) where
  global : List (String × T)
  buffer : List (Nat × List (String × T))
  window : List (Nat × List (String × T))
  script : List (Nat × List (String × T))
  locals : List (List (String × T))
  builtin : List (String × T)
  buffer_id : Option Nat
  window_id : Option Nat
  script_id : Option Nat

/-- namespace.rs `impl Default for NameSpaced<T>`. -/
def NameSpaced.init {T : Type} : NameSpaced T :=
  { global := [], buffer := [], window := [], script := [], locals := []
    builtin := [], buffer_id := none, window_id := none, script_id := none }

/-- namespace.rs `NameSpaced::insert`: resolves the namespace from the name,
then inserts into the store `get_mut` selects.  `get_mut` is inlined here;
note that in the source its Window arm inserts into the `buffer` map keyed by
`window_id`, and its Script arm inserts into the `buffer` map keyed by
`script_id` (both arms read `self.buffer`, not `self.window`/`self.script`). -/
def NameSpaced.insert {T : Type} (ns : NameSpaced T) (name : String) (val : T) :
    Except NamespaceError (NameSpaced T × Option T) :=
  match Namespace.from_name name with
  | .error e => .error e
  | .ok .global =>
    let (m, old) := alInsert ns.global name val
    .ok ({ ns with global := m }, old)
  | .ok .localNs =>
    match ns.locals with
    | [] => .error (.namespaceNotDefined .localNs)
    | f :: rest =>
      let (m, old) := alInsert f name val
      .ok ({ ns with locals := m :: rest }, old)
  | .ok .buffer =>
    match ns.buffer_id with
    | none => .error (.namespaceNotDefined .buffer)
    | some id =>
      let (m, old) := idEntryInsert ns.buffer id name val
      .ok ({ ns with buffer := m }, old)
  | .ok .window =>
    match ns.window_id with
    | none => .error (.namespaceNotDefined .window)
    | some id =>
      let (m, old) := idEntryInsert ns.buffer id name val
      .ok ({ ns with buffer := m }, old)
  | .ok .script =>
    match ns.script_id with
    | none => .error (.namespaceNotDefined .script)
    | some id =>
      let (m, old) := idEntryInsert ns.buffer id name val
      .ok ({ ns with buffer := m }, old)
  | .ok .builtin =>
    let (m, old) := alInsert ns.builtin name val
    .ok ({ ns with builtin := m }, old)

/-- namespace.rs `NameSpaced::remove` (same `get_mut` store selection as
`insert`, including the Window/Script arms operating on the `buffer` map). -/
def NameSpaced.remove {T : Type} (ns : NameSpaced T) (name : String) :
    Except NamespaceError (NameSpaced T × Option T) :=
  match Namespace.from_name name with
  | .error e => .error e
  | .ok .global =>
    let (m, old) := alRemove ns.global name
    .ok ({ ns with global := m }, old)
  | .ok .localNs =>
    match ns.locals with
    | [] => .error (.namespaceNotDefined .localNs)
    | f :: rest =>
      let (m, old) := alRemove f name
      .ok ({ ns with locals := m :: rest }, old)
  | .ok .buffer =>
    match ns.buffer_id with
    | none => .error (.namespaceNotDefined .buffer)
    | some id =>
      let (m, old) := idEntryRemove ns.buffer id name
      .ok ({ ns with buffer := m }, old)
  | .ok .window =>
    match ns.window_id with
    | none => .error (.namespaceNotDefined .window)
    | some id =>
      let (m, old) := idEntryRemove ns.buffer id name
      .ok ({ ns with buffer := m }, old)
  | .ok .script =>
    match ns.script_id with
    | none => .error (.namespaceNotDefined .script)
    | some id =>
      let (m, old) := idEntryRemove ns.buffer id name
      .ok ({ ns with buffer := m }, old)
  | .ok .builtin =>
    let (m, old) := alRemove ns.builtin name
    .ok ({ ns with builtin := m }, old)

/-- namespace.rs `NameSpaced::insert_builtin`. -/
def NameSpaced.insert_builtin {T : Type} (ns : NameSpaced T) (name : String) (val : T) :
    NameSpaced T :=
  { ns with builtin := (alInsert ns.builtin name val).1 }

/-- namespace.rs `NameSpaced::get`.  Note that in the source the Window and
Script arms both key their map by `self.buffer_id` and report
`NamespaceNotDefined(Buffer)` when it is unset (they do read the `window` /
`script` maps).  The Local arm searches the frames innermost-first and then
falls through to the builtin table. -/
def NameSpaced.get {T : Type} (ns : NameSpaced T) (name : String) :
    Except NamespaceError (Option T) :=
  match Namespace.from_name name with
  | .error e => .error e
  | .ok .global => .ok (alGet ns.global name)
  | .ok .buffer =>
    match ns.buffer_id with
    | none => .error (.namespaceNotDefined .buffer)
    | some id => .ok ((idGet ns.buffer id).bind (fun m => alGet m name))
  | .ok .window =>
    match ns.buffer_id with
    | none => .error (.namespaceNotDefined .buffer)
    | some id => .ok ((idGet ns.window id).bind (fun m => alGet m name))
  | .ok .script =>
    match ns.buffer_id with
    | none => .error (.namespaceNotDefined .buffer)
    | some id => .ok ((idGet ns.script id).bind (fun m => alGet m name))
  | .ok .localNs =>
    .ok ((ns.locals.findSome? (fun m => alGet m name)).orElse
      (fun _ => alGet ns.builtin name))
  | .ok .builtin => .ok (alGet ns.builtin name)

/-- namespace.rs `NameSpaced::set_window`. -/
def NameSpaced.set_window {T : Type} (ns : NameSpaced T) (id : Option Nat) : NameSpaced T :=
  { ns with window_id := id }

/-- namespace.rs `NameSpaced::set_buffer`. -/
def NameSpaced.set_buffer {T : Type} (ns : NameSpaced T) (id : Option Nat) : NameSpaced T :=
  { ns with buffer_id := id }

/-- namespace.rs `NameSpaced::set_script`. -/
def NameSpaced.set_script {T : Type} (ns : NameSpaced T) (id : Option Nat) : NameSpaced T :=
  { ns with script_id := id }

/-- namespace.rs `NameSpaced::enter_local`: push a fresh innermost frame. -/
def NameSpaced.enter_local {T : Type} (ns : NameSpaced T) : NameSpaced T :=
  { ns with locals := [] :: ns.locals }

/-- namespace.rs `NameSpaced::leave_local`: pop the innermost frame. -/
def NameSpaced.leave_local {T : Type} (ns : NameSpaced T) : NameSpaced T :=
  { ns with locals := ns.locals.tail }

/-- expr.rs `enum ValueError`. -/
inductive ValueError where
  | unterminatedString
  | unexpectedSymbol
  | invalidExpression
deriving DecidableEq, Repr

/-- value.rs `enum VimType`. -/
inductive VimType where
  | integer
  | number
  | str
  | bool
  | object
  | list
  | function
  | nil
  | blob
deriving DecidableEq, Repr

/-- lib.rs `enum VimError`.  The `Io`, `InvalidInt` and `InvalidBool`
variants wrap host library error types and are never produced by the code
paths settled here; they are omitted.  `panicked` is not a source variant:
it models Rust panics (`todo!`, `unreachable!`, `expect`, out-of-bounds
vector ops), which in Rust are not `Result` errors. -/
inductive VimErr where
  | unexpectedKeyword (s : String)
  | unexpectedEof
  | exit
  | rangeNotSupported
  | bangNotSupported
  | expected (s : String)
  | namespaceError (e : NamespaceError)
  | valError (e : ValueError)
  | variableUndefined (s : String)
  | functionUndefined (s : String)
  | commandUndefined (s : String)
  | timeOut
  | wrongArgCount (n : Nat)
  | expectedType (t : VimType)
  | notABool
  | illegalArgument (s : String)
  | panicked (s : String)
deriving DecidableEq, Repr

/-- value.rs `enum Value`.  `Arc<Mutex<Vec<Value>>>` and
`Arc<Mutex<HashMap<String, Value>>>` handles are modelled by direct
containment; `f64` by `Rat`; `isize` by `Int`; the optional script `Id` of a
function reference by `Option Nat`. -/
inductive Value where
  | integer (i : Int)
  | number (n : Rat)
  | str (s : String)
  | bool (b : Bool)
  | object (entries : List (String × Value))
  | list (xs : List Value)
  | function (id : Option Nat) (name : String)
  | nil

/-- value.rs `VimType::as_int`. -/
def VimType.as_int : VimType → Int
  | .integer => 0
  | .str => 1
  | .function => 2
  | .list => 3
  | .object => 4
  | .number => 5
  | .bool => 6
  | .nil => 7
  | .blob => 10

/-- value.rs `Value::ty`. -/
def Value.ty : Value → VimType
  | .integer _ => .integer
  | .number _ => .number
  | .str _ => .str
  | .bool _ => .bool
  | .object _ => .object
  | .list _ => .list
  | .function _ _ => .function
  | .nil => .nil

/-- value.rs `VimType::ty_names`: the type-tag builtin variables installed at
context construction. -/
def VimType.ty_names (ctx : NameSpaced Value) : NameSpaced Value :=
  ((((((((ctx.insert_builtin "v:t_number" (.integer VimType.integer.as_int)).insert_builtin
    "v:t_string" (.integer VimType.str.as_int)).insert_builtin
    "v:t_func" (.integer VimType.function.as_int)).insert_builtin
    "v:t_list" (.integer VimType.list.as_int)).insert_builtin
    "v:t_dict" (.integer VimType.object.as_int)).insert_builtin
    "v:t_float" (.integer VimType.number.as_int)).insert_builtin
    "v:t_bool" (.integer VimType.bool.as_int)).insert_builtin
    "v:t_null" (.integer VimType.nil.as_int)).insert_builtin
    "v:t_blob" (.integer VimType.blob.as_int)

mutual

/-- value.rs `impl PartialEq for Value`: contents are compared recursively
through the List/Object handles; `Function` compares id and name; any two
different variants are unequal. -/
def Value.beq : Value → Value → Bool
  | .integer l, .integer r => decide (l = r)
  | .number l, .number r => decide (l = r)
  | .str l, .str r => decide (l = r)
  | .bool l, .bool r => decide (l = r)
  | .object l, .object r => decide (l.length = r.length) && Value.objSubset l r
  | .list l, .list r => Value.beqList l r
  | .function li l, .function ri r => decide (l = r) && decide (li = ri)
  | .nil, .nil => true
  | _, _ => false

/-- `Vec<Value> == Vec<Value>`: equal length and pairwise equal elements. -/
def Value.beqList : List Value → List Value → Bool
  | [], [] => true
  | [], _ :: _ => false
  | _ :: _, [] => false
  | a :: as, b :: bs => Value.beq a b && Value.beqList as bs

/-- The element-wise half of `HashMap == HashMap`: every binding of the left
map is present, with an equal value, in the right map
(`other.get(key).map_or(false, |w| v == w)` for each binding). -/
def Value.objSubset : List (String × Value) → List (String × Value) → Bool
  | [], _ => true
  | (k, v) :: rest, r =>
    (match alGet r k with
     | some w => Value.beq v w
     | none => false) && Value.objSubset rest r

end

/-- Truncation of `Rat` toward zero, modelling Rust `f64 as isize`. -/
def ratTrunc (q : Rat) : Int :=
  if q < 0 then -((-q).floor) else q.floor

/-- value.rs `Value::to_int`.  The `todo!()` arms are Rust panics. -/
def Value.to_int : Value → Except VimErr Int
  | .integer i => .ok i
  | .number n => .ok (ratTrunc n)
  | .str _ => .error (.panicked "to_int Str")
  | .bool b => .ok (if b then 1 else 0)
  | .object _ => .error (.panicked "to_int Object")
  | .list _ => .error (.panicked "to_int List")
  | .function _ _ => .error (.panicked "to_int Function")
  | .nil => .ok 0

/-- value.rs `Value::to_num`. -/
def Value.to_num : Value → Except VimErr Rat
  | .integer i => .ok (i : Rat)
  | .number n => .ok n
  | .str _ => .error (.panicked "to_num Str")
  | .bool b => .ok (if b then 1 else 0)
  | .object _ => .error (.panicked "to_num Object")
  | .list _ => .error (.panicked "to_num List")
  | .function _ _ => .error (.panicked "to_num Function")
  | .nil => .ok 0

/-- Rendering of the `Rat` stand-in for `f64`; faithful to `f64` `Display`
for integral values, which is the only case the claims exercise. -/
def ratDisplay (q : Rat) : String :=
  if q.den = 1 then toString q.num else toString q.num ++ "/" ++ toString q.den

/-- A one-character string, modelling `format!("{c}")`. -/
def charStr (c : Char) : String :=
  String.mk [c]

mutual

/-- value.rs `Value::to_string` (the `ctx` parameter of the source is unused
there and omitted).  Note the faithful quirk for objects: the source
intersperses commas through the flattened `name / ":" / value` piece stream,
so an object renders as for example `\x7ba,:,1\x7d`. -/
def Value.to_string : Value → String
  | .integer i => toString i
  | .number n => ratDisplay n
  | .str s => s
  | .bool b => if b then "true" else "false"
  | .object o => "\x7b" ++ String.intercalate "," (Value.objPieces o) ++ "\x7d"
  | .list l => "[" ++ String.intercalate "," (Value.listStrings l) ++ "]"
  | .function _ f => f
  | .nil => "v:null"

/-- The flattened `name / ":" / value` piece stream of an object. -/
def Value.objPieces : List (String × Value) → List String
  | [] => []
  | (n, v) :: rest => n :: ":" :: Value.to_string v :: Value.objPieces rest

/-- Element renderings of a list value. -/
def Value.listStrings : List Value → List String
  | [] => []
  | v :: rest => Value.to_string v :: Value.listStrings rest

end

/-- namespace.rs `IdDisplay`: `"{id}:"` when an id is present, else empty. -/
def idDisplay : Option Nat → String
  | some i => toString i ++ ":"
  | none => ""

mutual

/-- value.rs `impl Display for Value` (used by `concat` and `echo`); objects
print as an opaque placeholder, lists print each element followed by a
comma. -/
def Value.display : Value → String
  | .integer i => toString i
  | .number n => ratDisplay n
  | .str s => s
  | .bool b => if b then "true" else "false"
  | .object _ => "\x7b -- \x7d"
  | .list l => "[" ++ Value.displayElems l ++ "]"
  | .function id name => "<Function@" ++ idDisplay id ++ name ++ ">"
  | .nil => "v:null"

/-- The `"{el},"` pieces of the list `Display` arm. -/
def Value.displayElems : List Value → String
  | [] => ""
  | v :: rest => Value.display v ++ "," ++ Value.displayElems rest

end

/-- value.rs `Value::add`. -/
def Value.add : Value → Value → Except VimErr Value
  | .integer l, .integer r => .ok (.integer (l + r))
  | l, r => do
    let a ← l.to_num
    let b ← r.to_num
    .ok (.number (a + b))

/-- value.rs `Value::sub`. -/
def Value.sub : Value → Value → Except VimErr Value
  | .integer l, .integer r => .ok (.integer (l - r))
  | l, r => do
    let a ← l.to_num
    let b ← r.to_num
    .ok (.number (a - b))

/-- value.rs `Value::neg`. -/
def Value.neg : Value → Except VimErr Value
  | .integer r => .ok (.integer (-r))
  | r => do
    let a ← r.to_num
    .ok (.number (-a))

/-- value.rs `Value::mul`. -/
def Value.mul : Value → Value → Except VimErr Value
  | .integer l, .integer r => .ok (.integer (l * r))
  | l, r => do
    let a ← l.to_num
    let b ← r.to_num
    .ok (.number (a * b))

/-- value.rs `Value::div`.  Rust `isize` division truncates toward zero and
panics on a zero divisor. -/
def Value.div : Value → Value → Except VimErr Value
  | .integer l, .integer r =>
    if r = 0 then .error (.panicked "divide by zero")
    else .ok (.integer (Int.tdiv l r))
  | l, r => do
    let a ← l.to_num
    let b ← r.to_num
    .ok (.number (a / b))

/-- value.rs `Value::concat`: `format!("{}{}", self, rhs)` over the
`Display` rendering, whatever the operand types. -/
def Value.concat (l r : Value) : Except VimErr Value :=
  .ok (.str (Value.display l ++ Value.display r))

/-- value.rs `Value::less`: an actual comparison only for
(Integer,Integer), (Number,Number) and (Str,Str); every other pairing is
`false`, never an error. -/
def Value.less : Value → Value → Except VimErr Value
  | .integer l, .integer r => .ok (.bool (decide (l < r)))
  | .number l, .number r => .ok (.bool (decide (l < r)))
  | .str l, .str r => .ok (.bool (decide (l < r)))
  | _, _ => .ok (.bool false)

/-- value.rs `Value::equal`: `Bool(self == rhs)` via the structural
`PartialEq`. -/
def Value.equal (l r : Value) : Except VimErr Value :=
  .ok (.bool (Value.beq l r))

/-- value.rs `Value::index`.  List: signed index through `to_int`, negative
taking `rev().nth((1 - idx) as usize)`, positive taking `nth(idx as usize)`,
out of range giving Nil.  Str: the same on characters.  Object: lookup of
the stringified index, missing keys giving Nil.  Anything else is a
`todo!()` panic. -/
def Value.index (self idx : Value) : Except VimErr Value :=
  match self with
  | .list l => do
    let i ← idx.to_int
    if i < 0 then
      .ok ((l.reverse.get? (1 - i).toNat).getD .nil)
    else
      .ok ((l.get? i.toNat).getD .nil)
  | .str s => do
    let i ← idx.to_int
    if i < 0 then
      .ok (((s.toList.reverse.get? (1 - i).toNat).map (fun c => Value.str (charStr c))).getD .nil)
    else
      .ok (((s.toList.get? i.toNat).map (fun c => Value.str (charStr c))).getD .nil)
  | .object m => .ok ((alGet m (Value.to_string idx)).getD .nil)
  | _ => .error (.panicked "index")

/-- value.rs `impl IntoIterator for Value`: lists yield their elements,
objects yield `[key, value]` pair lists, strings yield one-character
strings, everything else is empty. -/
def Value.intoIter : Value → List Value
  | .list l => l
  | .object m => m.map (fun p => Value.list [Value.str p.1, p.2])
  | .str s => s.toList.map (fun c => Value.str (charStr c))
  | _ => []

/-- value.rs `Value::parse_str`: a leading quote starts a string literal
whose decoded text is everything after the quote; anything else is a
`todo!()` panic. -/
def Value.parse_str (s : List Char) : Except VimErr Value :=
  match s with
  | c :: rest =>
    if c = '\'' ∨ c = '"' then .ok (.str (String.mk rest))
    else .error (.panicked "Invalid string")
  | [] => .error (.panicked "Invalid string")

/-- All-decimal-digit parse (the digits of `str::parse::<usize>`). -/
def parseDigits : List Char → Option Nat
  | [] => none
  | cs =>
    if cs.all Char.isDigit then
      some (cs.foldl (fun acc c => acc * 10 + (c.toNat - 48)) 0)
    else none

/-- `str::parse::<isize>`: optional sign, then decimal digits. -/
def parseIsize : List Char → Option Int
  | '+' :: rest => (parseDigits rest).map Int.ofNat
  | '-' :: rest => (parseDigits rest).map (fun n => -(n : Int))
  | cs => (parseDigits cs).map Int.ofNat

/-- `str::parse::<f64>` restricted to plain decimal forms
`[+-]digits[.digits]` (exponents, infinities and NaN never reach this code
path in the claims settled here). -/
def parseF64 (cs : List Char) : Option Rat :=
  let (sgn, rest) : Int × List Char :=
    match cs with
    | '+' :: r => (1, r)
    | '-' :: r => (-1, r)
    | r => (1, r)
  let ip := rest.takeWhile Char.isDigit
  match rest.drop ip.length with
  | '.' :: frac =>
    if frac.all Char.isDigit ∧ (ip ≠ [] ∨ frac ≠ []) then
      let ipN : Nat := ip.foldl (fun acc c => acc * 10 + (c.toNat - 48)) 0
      let frN : Nat := frac.foldl (fun acc c => acc * 10 + (c.toNat - 48)) 0
      some (sgn * ((ipN : Rat) + (frN : Rat) / ((10 : Rat) ^ frac.length)))
    else none
  | _ => none

/-- The value of one digit in radix `b`, accepting letters for bases above
ten. -/
def digitVal (b : Nat) (c : Char) : Option Nat :=
  let v :=
    if c.isDigit then some (c.toNat - 48)
    else if 'a' ≤ c ∧ c ≤ 'z' then some (c.toNat - 97 + 10)
    else if 'A' ≤ c ∧ c ≤ 'Z' then some (c.toNat - 65 + 10)
    else none
  match v with
  | some d => if d < b then some d else none
  | none => none

/-- `isize::from_str_radix`: optional sign, then digits in the radix. -/
def parseRadix (b : Nat) (cs : List Char) : Option Int :=
  let go : List Char → Option Nat := fun ds =>
    match ds with
    | [] => none
    | _ =>
      ds.foldl (fun acc c =>
        match acc, digitVal b c with
        | some a, some d => some (a * b + d)
        | _, _ => none) (some 0)
  match cs with
  | '+' :: rest => (go rest).map Int.ofNat
  | '-' :: rest => (go rest).map (fun n => -(n : Int))
  | _ => (go cs).map Int.ofNat

/-- value.rs `Value::parse_num`: decimal `isize` first, then `f64`, then the
`0x`/`0o` radix forms (whose digit failures are `UnexpectedSymbol` faults);
anything else is a `todo!()` panic. -/
def Value.parse_num (s : List Char) : Except VimErr Value :=
  match parseIsize s with
  | some i => .ok (.integer i)
  | none =>
    match parseF64 s with
    | some q => .ok (.number q)
    | none =>
      match s with
      | '0' :: 'x' :: rest =>
        match parseRadix 16 rest with
        | some i => .ok (.integer i)
        | none => .error (.valError .unexpectedSymbol)
      | '0' :: 'o' :: rest =>
        match parseRadix 8 rest with
        | some i => .ok (.integer i)
        | none => .error (.valError .unexpectedSymbol)
      | _ => .error (.panicked "Invalid number")

/-- The characters `\x7b` and `\x7d` (written by code so that no brace
appears in a string literal). -/
def lbraceChar : Char := Char.ofNat 123

/-- See `lbraceChar`. -/
def rbraceChar : Char := Char.ofNat 125

/-- Leading-whitespace trim (`str::trim_start`). -/
def trimL (cs : List Char) : List Char :=
  cs.dropWhile Char.isWhitespace

/-- Two-sided trim (`str::trim`). -/
def trimBoth (cs : List Char) : List Char :=
  ((cs.dropWhile Char.isWhitespace).reverse.dropWhile Char.isWhitespace).reverse

/-- `str::split_once(c)`. -/
def splitOnceChar (cs : List Char) (c : Char) : Option (List Char × List Char) :=
  match cs.findIdx? (fun x => decide (x = c)) with
  | some i => some (cs.take i, cs.drop (i + 1))
  | none => none

/-- expr.rs `enum ExprPeice` (sic). -/
inductive ExprPeice where
  | op (s : String)
  | var (s : String)
  | value (v : Value)
  | fnCall (s : String)
  | fnValueCall (s : String)

/-- Token-at-index access for the reduction passes; the passes only read
positions their own bounds checks make valid, the default is never the
decisive value. -/
def tokAt (ts : List ExprPeice) (i : Nat) : ExprPeice :=
  ts.getD i (.op "")

/-- Whether a token is the operator `s`. -/
def isOp (t : ExprPeice) (s : String) : Bool :=
  match t with
  | .op o => decide (o = s)
  | _ => false

/-- expr.rs `ExprPeice::is_operation`: an operator token whose first
character is arithmetic/comparison punctuation (grouping symbols excluded). -/
def ExprPeice.is_operation (t : ExprPeice) : Bool :=
  match t with
  | .op o =>
    match o.toList with
    | c :: _ => c ∈ ['+', '.', '*', '-', '/', '%', '=', '!', '<', '>']
    | [] => false
  | _ => false

/-- The stateful terminator search of the string-literal arm of
`ExprPeice::parse`: first index whose character equals the quote and whose
preceding scanned character is not a backslash (`last` starts as a
backslash and is updated to every scanned character). -/
def findQuoteEnd (q : Char) : Char → Nat → List Char → Option Nat
  | _, _, [] => none
  | last, i, c :: rest =>
    if last ≠ '\\' ∧ c = q then some i else findQuoteEnd q c (i + 1) rest

/-- Continuation characters of a numeric literal in `ExprPeice::parse`. -/
def charIsNumContinue (c : Char) : Bool :=
  c.isDigit ∨ c = '_' ∨ c = '.' ∨ c.isAlpha

/-- Continuation characters of an identifier in `ExprPeice::parse`. -/
def charIsIdentContinue (c : Char) : Bool :=
  c.isAlpha ∨ c.isDigit ∨ c = ':'

/-- The single-token scanner, expr.rs `ExprPeice::parse`: quoted string,
numeric literal, identifier, or a 1/2-character operator from the fixed
punctuation set (two characters exactly when the second is `=`); any other
leading character — `&` included — is an `UnexpectedSymbol` fault. -/
def ExprPeice.parse (cs : List Char) : Except VimErr (ExprPeice × List Char) :=
  match cs with
  | [] => .error (.panicked "Non-empty string")
  | first :: rest =>
    if first = '\'' ∨ first = '"' then
      match findQuoteEnd first '\\' 0 cs with
      | none => .error (.valError .unterminatedString)
      | some i => do
        let v ← Value.parse_str (cs.take i)
        .ok (.value v, cs.drop (i + 1))
    else if first.isDigit then
      let i := (cs.findIdx? (fun c => ¬ charIsNumContinue c)).getD cs.length
      do
        let v ← Value.parse_num (cs.take i)
        .ok (.value v, cs.drop i)
    else if first.isAlpha then
      let i := (cs.findIdx? (fun c => ¬ charIsIdentContinue c)).getD cs.length
      .ok (.var (String.mk (cs.take i)), cs.drop i)
    else if first ∈ ['+', '.', '*', '-', '/', '%', '=', '!', '<', '>', ',', '[', ']',
        lbraceChar, rbraceChar, '(', ')', ':'] then
      match rest with
      | '=' :: _ => .ok (.op (String.mk (cs.take 2)), cs.drop 2)
      | _ => .ok (.op (String.mk (cs.take 1)), cs.drop 1)
    else .error (.valError .unexpectedSymbol)

/-- Stage 1 of expr.rs `parse`: scan tokens until the text is exhausted,
trimming between tokens.  Each scanned token consumes at least one
character, so the fuel `cs.length + 1` of `tokenize` never runs out. -/
def tokenizeGo : Nat → List Char → Except VimErr (List ExprPeice)
  | _, [] => .ok []
  | 0, _ => .error (.panicked "tokenize fuel")
  | f + 1, cs => do
    let (t, rest) ← ExprPeice.parse cs
    let ts ← tokenizeGo f (trimBoth rest)
    .ok (t :: ts)

/-- The expression lexer loop of expr.rs `parse` (lines 90–95). -/
def tokenize (cs : List Char) : Except VimErr (List ExprPeice) :=
  tokenizeGo (cs.length + 1) cs

/-- Stage 2, expr.rs `function_call_extract`: each `ident(` pair becomes a
pending call token, the `(` removed. -/
def fceGo : Nat → Nat → Bool → List ExprPeice → Bool × List ExprPeice
  | 0, _, ch, ts => (ch, ts)
  | f + 1, i, ch, ts =>
    if i < ts.length - 1 then
      match ts.get? i, ts.get? (i + 1) with
      | some (.var fn), some t =>
        if isOp t "(" then fceGo f (i + 1) true ((ts.eraseIdx (i + 1)).set i (.fnCall fn))
        else fceGo f (i + 1) ch ts
      | _, _ => fceGo f (i + 1) ch ts
    else (ch, ts)

/-- expr.rs `function_call_extract`. -/
def function_call_extract (ts : List ExprPeice) : Bool × List ExprPeice :=
  fceGo (ts.length + 1) 0 false ts

/-- expr.rs `function_value_call_extract`: a `Function(None, name)` value
followed by `(` becomes a pending call on that name (the `ctx` parameter of
the source is unused). -/
def fvceGo : Nat → Nat → Bool → List ExprPeice → Bool × List ExprPeice
  | 0, _, ch, ts => (ch, ts)
  | f + 1, i, ch, ts =>
    if i < ts.length - 1 then
      match ts.get? i, ts.get? (i + 1) with
      | some (.value (.function none name)), some t =>
        if isOp t "(" then fvceGo f (i + 1) true ((ts.eraseIdx (i + 1)).set i (.fnValueCall name))
        else fvceGo f (i + 1) ch ts
      | _, _ => fvceGo f (i + 1) ch ts
    else (ch, ts)

/-- expr.rs `function_value_call_extract` (wrapper). -/
def function_value_call_extract (ts : List ExprPeice) : Bool × List ExprPeice :=
  fvceGo (ts.length + 1) 0 false ts

/-- The comma-part shape check of the `list` pass: every comma-separated
part is exactly one value or empty. -/
def listPartsOk : List ExprPeice → Bool
  | [] => true
  | t :: rest =>
    if isOp t "," then listPartsOk rest
    else
      match t, rest with
      | .value _, [] => true
      | .value _, t₂ :: rest₂ => isOp t₂ "," && listPartsOk rest₂
      | _, _ => false

/-- expr.rs `list` pass: a `[`, placed at the start or after an operator,
whose contents up to the first `]` are comma-separated values, collapses to
a List literal. -/
def listPassGo : Nat → Nat → Bool → List ExprPeice → Bool × List ExprPeice
  | 0, _, ch, ts => (ch, ts)
  | f + 1, i, ch, ts =>
    if i < ts.length - 1 then
      if isOp (tokAt ts i) "[" ∧ (i = 0 ∨ (tokAt ts (i - 1)).is_operation) then
        match (ts.drop i).findIdx? (fun t => isOp t "]") with
        | some e =>
          if listPartsOk ((ts.drop (i + 1)).take (e - 1)) then
            let seg := (ts.drop (i + 1)).take e
            let vals := seg.filterMap (fun t => match t with | .value v => some v | _ => none)
            listPassGo f (i + 1) true
              (ts.take i ++ ExprPeice.value (.list vals) :: ts.drop (i + 1 + e))
          else listPassGo f (i + 1) ch ts
        | none => listPassGo f (i + 1) ch ts
      else listPassGo f (i + 1) ch ts
    else (ch, ts)

/-- expr.rs `list` pass (wrapper). -/
def listPass (ts : List ExprPeice) : Bool × List ExprPeice :=
  listPassGo (ts.length + 1) 0 false ts

/-- The comma-part shape check of the `object` pass: every comma-separated
part is `value : value` or empty. -/
def objPartsOk : List ExprPeice → Bool
  | [] => true
  | t :: rest =>
    if isOp t "," then objPartsOk rest
    else
      match t, rest with
      | .value _, t₂ :: t₃ :: rest₃ =>
        isOp t₂ ":" &&
          (match t₃ with | .value _ => true | _ => false) &&
          (match rest₃ with
           | [] => true
           | t₄ :: rest₄ => isOp t₄ "," && objPartsOk rest₄)
      | _, _ => false

/-- The extraction loop of the `object` pass: collect `key : value` triples
from the removed segment, skipping commas and the closing brace. -/
def objCollect : List ExprPeice → List (String × Value)
  | .value k :: _ :: .value v :: rest => (Value.to_string k, v) :: objCollect rest
  | _ :: rest => objCollect rest
  | [] => []

/-- expr.rs `object` pass: a brace group of `value : value` pairs collapses
to an Object literal (keys stringified, duplicates last-writer-wins as in
`HashMap::insert`). -/
def objPassGo : Nat → Nat → Bool → List ExprPeice → Bool × List ExprPeice
  | 0, _, ch, ts => (ch, ts)
  | f + 1, i, ch, ts =>
    if i < ts.length - 1 then
      if isOp (tokAt ts i) (String.mk [lbraceChar]) then
        match (ts.drop i).findIdx? (fun t => isOp t (String.mk [rbraceChar])) with
        | some e =>
          if objPartsOk ((ts.drop (i + 1)).take (e - 1)) then
            let seg := (ts.drop (i + 1)).take e
            let entries := (objCollect seg).foldl (fun m p => (alInsert m p.1 p.2).1) []
            objPassGo f (i + 1) true
              (ts.take i ++ ExprPeice.value (.object entries) :: ts.drop (i + 1 + e))
          else objPassGo f (i + 1) ch ts
        | none => objPassGo f (i + 1) ch ts
      else objPassGo f (i + 1) ch ts
    else (ch, ts)

/-- expr.rs `object` pass (wrapper).  The source guards this pass by the
shape check `objPartsOk`, so the `debug_assert` on the colon always holds. -/
def objPass (ts : List ExprPeice) : Bool × List ExprPeice :=
  objPassGo (ts.length + 1) 0 false ts

/-- expr.rs `list_index` pass: `value [ value ]` collapses through
`Value::index`. -/
def listIndexGo : Nat → Nat → Bool → List ExprPeice → Except VimErr (Bool × List ExprPeice)
  | 0, _, ch, ts => .ok (ch, ts)
  | f + 1, i, ch, ts =>
    if i < ts.length - 3 then
      match ts.get? i, ts.get? (i + 1), ts.get? (i + 2), ts.get? (i + 3) with
      | some (.value v), some t₁, some (.value idx), some t₃ =>
        if isOp t₁ "[" ∧ isOp t₃ "]" then do
          let r ← v.index idx
          listIndexGo f (i + 1) true (ts.take i ++ ExprPeice.value r :: ts.drop (i + 4))
        else listIndexGo f (i + 1) ch ts
      | _, _, _, _ => listIndexGo f (i + 1) ch ts
    else .ok (ch, ts)

/-- expr.rs `list_index` pass (wrapper). -/
def listIndexPass (ts : List ExprPeice) : Except VimErr (Bool × List ExprPeice) :=
  listIndexGo (ts.length + 1) 0 false ts

/-- expr.rs `parens` pass: `( token )` preceded by nothing or an operator
drops its parentheses. -/
def parensGo : Nat → Nat → Bool → List ExprPeice → Bool × List ExprPeice
  | 0, _, ch, ts => (ch, ts)
  | f + 1, i, ch, ts =>
    if i < ts.length - 2 then
      if isOp (tokAt ts i) "(" ∧ isOp (tokAt ts (i + 2)) ")" ∧
          (i = 0 ∨ (tokAt ts (i - 1)).is_operation) then
        parensGo f (i + 1) true (ts.take i ++ tokAt ts (i + 1) :: ts.drop (i + 3))
      else parensGo f (i + 1) ch ts
    else (ch, ts)

/-- expr.rs `parens` pass (wrapper). -/
def parensPass (ts : List ExprPeice) : Bool × List ExprPeice :=
  parensGo (ts.length + 1) 0 false ts

/-- The inner operator loop of expr.rs `unary_expr` at one position: the
source removes the operand before inspecting it, so a non-value operand is
lost from the token stream even though nothing is applied. -/
def unaryOpsStep (ops : List (String × (Value → Except VimErr Value))) (i : Nat)
    (ts : List ExprPeice) : Except VimErr (Bool × List ExprPeice) :=
  match ops with
  | [] => .ok (false, ts)
  | (op, f) :: opsRest =>
    let prevIsVal : Bool :=
      match ts.get? (i - 1) with
      | some (.value _) => true
      | some (.var _) => true
      | _ => false
    if !prevIsVal && isOp (tokAt ts i) op then
      match ts.get? (i + 1) with
      | some (.value rhs) => do
        let r ← f rhs
        .ok (true, (ts.eraseIdx (i + 1)).set i (.value r))
      | some _ => unaryOpsStep opsRest i (ts.eraseIdx (i + 1))
      | none => .error (.panicked "remove out of bounds")
    else unaryOpsStep opsRest i ts

/-- expr.rs `unary_expr`: the position loop. -/
def unaryGo (ops : List (String × (Value → Except VimErr Value))) :
    Nat → Nat → Bool → List ExprPeice → Except VimErr (Bool × List ExprPeice)
  | 0, _, ch, ts => .ok (ch, ts)
  | f + 1, i, ch, ts =>
    if i < ts.length - 1 then do
      let (applied, ts₂) ← unaryOpsStep ops i ts
      unaryGo ops f (i + 1) (ch || applied) ts₂
    else .ok (ch, ts)

/-- expr.rs `unary_expr` (wrapper). -/
def unaryPass (ops : List (String × (Value → Except VimErr Value)))
    (ts : List ExprPeice) : Except VimErr (Bool × List ExprPeice) :=
  unaryGo ops (ts.length + 1) 0 false ts

/-- The inner operator loop of expr.rs `binary_expr` at one position; as in
the source, operands are removed before being inspected, so tokens that
fail the value check are lost from the stream. -/
def binOpsStep (ops : List (String × (Value → Value → Except VimErr Value))) (i : Nat)
    (ts : List ExprPeice) : Except VimErr (Bool × List ExprPeice) :=
  match ops with
  | [] => .ok (false, ts)
  | (op, f) :: opsRest =>
    if isOp (tokAt ts (i + 1)) op then
      match ts.get? (i + 2) with
      | none => .error (.panicked "remove out of bounds")
      | some (.value rhs) =>
        let ts₂ := ts.eraseIdx (i + 2)
        match ts₂.get? i with
        | some (.value lhs) => do
          let r ← f lhs rhs
          .ok (true, (ts₂.eraseIdx i).set i (.value r))
        | some _ => binOpsStep opsRest i (ts₂.eraseIdx i)
        | none => .error (.panicked "remove out of bounds")
      | some _ => binOpsStep opsRest i (ts.eraseIdx (i + 2))
    else binOpsStep opsRest i ts

/-- expr.rs `binary_expr`: the position loop. -/
def binGo (ops : List (String × (Value → Value → Except VimErr Value))) :
    Nat → Nat → Bool → List ExprPeice → Except VimErr (Bool × List ExprPeice)
  | 0, _, ch, ts => .ok (ch, ts)
  | f + 1, i, ch, ts =>
    if i < ts.length - 2 then do
      let (applied, ts₂) ← binOpsStep ops i ts
      binGo ops f (i + 1) (ch || applied) ts₂
    else .ok (ch, ts)

/-- expr.rs `binary_expr` (wrapper). -/
def binaryPass (ops : List (String × (Value → Value → Except VimErr Value)))
    (ts : List ExprPeice) : Except VimErr (Bool × List ExprPeice) :=
  binGo ops (ts.length + 1) 0 false ts

/-- value.rs `enum Names`: the destructuring pattern of a `for` loop
variable. -/
inductive Names where
  | single (s : String)
  | list (ns : List Names)
  | object (ns : List (String × Names))

mutual

/-- value.rs `Names::parse`.  A malformed pattern can loop forever in the
source (a sub-parse that consumes nothing); exhausted fuel models that
divergence.  Note the faithful quirk of the object arm: the colon split is
taken from the ORIGINAL string `s`, not from the loop remainder. -/
def Names.parse : Nat → List Char → Except VimErr (Names × List Char)
  | 0, _ => .error (.panicked "Names::parse diverges")
  | f + 1, s =>
    match s with
    | c :: rem =>
      if c = '[' then Names.parseListLoop f [] rem
      else if c = lbraceChar then Names.parseObjLoop f s [] rem
      else
        match s.findIdx? (fun c => ¬ c.isAlphanum) with
        | some idx => .ok (.single (String.mk (s.take idx)), s.drop idx)
        | none => .error (.expected "in")
    | [] =>
      match ([] : List Char).findIdx? (fun c => ¬ c.isAlphanum) with
      | some idx => .ok (.single (String.mk (([] : List Char).take idx)), ([] : List Char).drop idx)
      | none => .error (.expected "in")

/-- The accumulation loop of the `[` arm of `Names::parse`. -/
def Names.parseListLoop : Nat → List Names → List Char → Except VimErr (Names × List Char)
  | 0, _, _ => .error (.panicked "Names::parse diverges")
  | f + 1, acc, rem =>
    match trimBoth rem with
    | ']' :: rest => .ok (.list acc.reverse, rest)
    | [] => .error (.expected "]")
    | _ => do
      let (name, newRem) ← Names.parse f rem
      Names.parseListLoop f (name :: acc) newRem

/-- The accumulation loop of the brace arm of `Names::parse`; `sOrig` is the
original string consulted by the colon split. -/
def Names.parseObjLoop :
    Nat → List Char → List (String × Names) → List Char → Except VimErr (Names × List Char)
  | 0, _, _, _ => .error (.panicked "Names::parse diverges")
  | f + 1, sOrig, acc, rem =>
    match trimBoth rem with
    | c :: rest =>
      if c = rbraceChar then .ok (.object acc.reverse, rest)
      else
        match splitOnceChar sOrig ':' with
        | some (idx, newRem) => do
          let (name, newRem₂) ← Names.parse f newRem
          Names.parseObjLoop f sOrig ((String.mk idx, name) :: acc) newRem₂
        | none => do
          let r ← Names.parse f rem
          match r with
          | (.single name, newRem) =>
            Names.parseObjLoop f sOrig ((name, .single name) :: acc) newRem
          | _ => .error (.expected ":")
    | [] => .error (.expected "\x7d")

end

/-- lib.rs `enum CmdRange` / `CmdRangeOwned` (one owned form suffices in the
model). -/
inductive CmdRange where
  | currentLine
  | whole
  | select (s : String)
  | rangeFrom (n : Nat)
  | rangeTo (n : Nat)
  | range (first last : Nat)

/-- lib.rs `CmdRange::is_some`: any range other than the current-line
default. -/
def CmdRange.is_some : CmdRange → Bool
  | .currentLine => false
  | _ => true

/-- lib.rs `struct Line` / `LineOwned` (one owned form suffices). -/
structure Line where
  range : CmdRange
  command : String
  bang : Bool
  params : String

/-- `str::parse::<usize>`: optional `+`, then decimal digits. -/
def parseUsize : List Char → Option Nat
  | '+' :: rest => parseDigits rest
  | cs => parseDigits cs

/-- The stateful separator search of `Line::split_range` for `/pattern/`:
first unescaped `/` (`last` starts as `/` and is updated to every scanned
character). -/
def findSlashEnd : Char → Nat → List Char → Option Nat
  | _, _, [] => none
  | last, i, c :: rest =>
    if c = '/' ∧ last ≠ '\\' then some i else findSlashEnd c (i + 1) rest

/-- lib.rs `Line::split_range`: `/pattern/`, `%`, or a numeric prefix before
the first alphabetic character, split on a comma into from/to bounds. -/
def Line.split_range (cs : List Char) : Except VimErr (CmdRange × List Char) :=
  match cs with
  | '/' :: rest =>
    (match findSlashEnd '/' 0 rest with
     | some i => .ok (.select (String.mk (rest.take i)), rest.drop (i + 1))
     | none => .error (.expected "/"))
  | '%' :: rest => .ok (.whole, rest)
  | _ =>
    let idx := (cs.findIdx? Char.isAlpha).getD cs.length
    let remL := cs.drop idx
    match splitOnceChar (cs.take idx) ',' with
    | some ([], []) => .ok (.whole, remL)
    | some ([], e) =>
      (match parseUsize e with
       | some n => .ok (.rangeTo n, remL)
       | none => .error (.expected "Number"))
    | some (st, []) =>
      (match parseUsize st with
       | some n => .ok (.rangeFrom n, remL)
       | none => .error (.expected "Number"))
    | some (st, e) =>
      (match parseUsize st, parseUsize e with
       | some a, some b => .ok (.range a b, remL)
       | _, _ => .error (.expected "Number"))
    | none => .ok (.currentLine, remL)

/-- lib.rs `Line::split_command`: the maximal leading alphanumeric run. -/
def Line.split_command (cs : List Char) : List Char × List Char :=
  match cs.findIdx? (fun c => ¬ c.isAlphanum) with
  | some idx => (cs.take idx, cs.drop idx)
  | none => (cs, [])

/-- lib.rs `Line::split_bang`. -/
def Line.split_bang (cs : List Char) : Bool × List Char :=
  match cs with
  | '!' :: rest => (true, rest)
  | _ => (false, cs)

/-- lib.rs `Line::new`: trim, drop `"`-comments, split range / command /
bang, left-trim the parameters; an empty command with no bang is no line. -/
def Line.new (cs : List Char) : Except VimErr (Option Line) :=
  let l := trimBoth cs
  match l with
  | '"' :: _ => .ok none
  | _ => do
    let (range, l₂) ← Line.split_range l
    let (cmd, l₃) := Line.split_command l₂
    let (bang, params) := Line.split_bang l₃
    if ¬ bang ∧ cmd = [] then .ok none
    else .ok (some { range, command := String.mk cmd, bang, params := String.mk (trimL params) })

/-- lib.rs `enum Tokenizer`: a live scan over script text, or a replay
iterator over captured lines. -/
inductive Tokenizer where
  | script (cs : List Char)
  | iter (ls : List Line)

/-- The stateful separator search of `Tokenizer::get_next`: an unescaped
newline or any `|` (`last` starts as a space and is updated only by
non-whitespace characters). -/
def findLineEnd : Char → Nat → List Char → Option Nat
  | _, _, [] => none
  | last, i, c :: rest =>
    if (last ≠ '\\' ∧ c = '\n') ∨ c = '|' then some i
    else findLineEnd (if c.isWhitespace then last else c) (i + 1) rest

/-- lib.rs `Tokenizer::get_next`: split one raw line off the script text and
parse it. -/
def Tokenizer.get_next (cs : List Char) : Except VimErr (Option Line × List Char) :=
  match findLineEnd ' ' 0 cs with
  | some i => do
    let ln ← Line.new (trimBoth (cs.take i))
    .ok (ln, trimBoth (cs.drop (i + 1)))
  | none => do
    let ln ← Line.new (trimBoth cs)
    .ok (ln, [])

/-- The comment-skipping loop of `Tokenizer::next` for the live-scan source;
each round consumes at least one character, so the fuel of
`Tokenizer.next` never runs out. -/
def Tokenizer.scriptNext : Nat → List Char → Except VimErr (Option Line × Tokenizer)
  | 0, _ => .error (.panicked "tokenizer fuel")
  | f + 1, cs =>
    if cs = [] then .ok (none, .script [])
    else do
      let (ln, rest) ← Tokenizer.get_next cs
      match ln with
      | some l => .ok (some l, .script rest)
      | none => Tokenizer.scriptNext f rest

/-- lib.rs `Tokenizer::next`. -/
def Tokenizer.next : Tokenizer → Except VimErr (Option Line × Tokenizer)
  | .iter ls =>
    match ls with
    | [] => .ok (none, .iter [])
    | l :: rest => .ok (some l, .iter rest)
  | .script cs => Tokenizer.scriptNext (cs.length + 1) cs

/-- value.rs `struct VimFunction`: parameter names plus the captured body
lines. -/
structure VimFunction where
  params : List String
  inner : List Line

/-- `f.inner.push(line.to_owned())` during function capture. -/
def VimFunction.push (f : VimFunction) (l : Line) : VimFunction :=
  { f with inner := f.inner ++ [l] }

/-- `str::split(',')`: every comma splits, producing `n + 1` parts. -/
def splitCommaParts : Nat → List Char → List (List Char)
  | 0, cs => [cs]
  | f + 1, cs =>
    match splitOnceChar cs ',' with
    | some (a, b) => a :: splitCommaParts f b
    | none => [cs]

/-- lib.rs `VimScriptCtx::parse_function`: split the header at the first
`(`, require a trailing `)`, and take the comma-separated, trimmed
parameter names (an empty argument text still yields one empty name). -/
def parse_function (cs : List Char) : Except VimErr (String × VimFunction) :=
  match splitOnceChar cs '(' with
  | some (name, args) =>
    (match args.reverse with
     | ')' :: r =>
       let inner := r.reverse
       .ok (String.mk name,
         { params := (splitCommaParts (inner.length + 1) inner).map
             (fun p => String.mk (trimBoth p)),
           inner := [] })
     | _ => .error (.expected "Function arguments"))
  | none => .error (.expected "Function arguments")

/-- lib.rs `enum Section`; `If`/`While`/`For`/`Function` are keywords in
Lean and renamed `ifS`/`whileS`/`forS`/`func`. -/
inductive Section where
  | script
  | func
  | ifS
  | whileS
  | forS
deriving DecidableEq, Repr

/-- lib.rs `enum RunTy`; the `Function` capture mode carries the function
being built (the source holds it by `&mut`). -/
inductive RunTy where
  | now
  | skip
  | skipEndIf
  | function (f : VimFunction)

/-- lib.rs `enum ReturnType`; `Continue`/`Break`/`Return` are (near-)
keywords in Lean and renamed. -/
inductive ReturnType where
  | cont
  | brk
  | ret (v : Value)

/-- value.rs `enum Function<S>`: a captured vimscript function or a
builtin.  The builtin bodies registered by builtin.rs are host-level
closures over `f64` math and string formatting; no claim settled here calls
one, and invoking one in this model is an opaque fault. -/
inductive Func where
  | vimscript (f : VimFunction)
  | builtinF (name : String)

/-- The command registry entries: the two commands builtin.rs registers at
construction (`call`, `echo`), plus host-registered handlers, which are
outside the scope of the claims settled here and modelled as inert. -/
inductive Cmd where
  | callCmd
  | echoCmd
  | hostCmd

/-- The host `State` capability (lib.rs `trait State`).  `set_silent` and
`echo` only sink into host-held data, which is modelled canonically here;
`get_option` is an arbitrary host function. -/
structure HostState where
  silentFlag : Bool
  echoes : List String
  getOpt : String → Except VimErr Value

/-- lib.rs `struct VimScriptCtx<S>`, bundled with the host state.  The
wall-clock `timeout` field is modelled by the fuel parameter of the
interpreter functions. -/
structure Ctx where
  commands : List (String × Cmd)
  functions : NameSpaced Func
  vars : NameSpaced Value
  silence_level : Nat
  host : HostState

/-- The interpreter monad: state-passing over `Ctx` where an error keeps
the state reached so far, exactly like Rust `?` over `&mut self`. -/
abbrev M (α : Type) : Type := EStateM VimErr Ctx α

/-- Throw, keeping the current context. -/
def throwE {α : Type} (e : VimErr) : M α :=
  fun ctx => .error e ctx

/-- Lift a pure `Except` computation. -/
def liftE {α : Type} : Except VimErr α → M α
  | .ok a => fun ctx => .ok a ctx
  | .error e => fun ctx => .error e ctx

/-- Apply a pure context update. -/
def modifyCtx (g : Ctx → Ctx) : M Unit :=
  fun ctx => .ok () (g ctx)

/-- `state.set_silent(b)`. -/
def Ctx.setSilentFlag (c : Ctx) (b : Bool) : Ctx :=
  { c with host := { c.host with silentFlag := b } }

/-- `state.echo(msg)`. -/
def Ctx.echo (c : Ctx) (msg : String) : Ctx :=
  { c with host := { c.host with echoes := c.host.echoes ++ [msg] } }

/-- lib.rs `VimScriptCtx::get_func`: `functions.get(name).ok().flatten()`
(namespace faults are swallowed into a missing function; the id is
ignored by the source). -/
def Ctx.get_func (c : Ctx) (_id : Option Nat) (name : String) : Option Func :=
  match c.functions.get name with
  | .ok o => o
  | .error _ => none

/-- value.rs `Value::to_bool` (the context is consulted only to test
whether a function reference resolves). -/
def Value.to_bool (ctx : Ctx) : Value → Except VimErr Bool
  | .integer i => .ok (decide (i ≠ 0))
  | .number n => .ok (decide (n ≠ 0))
  | .str s => .ok (decide (s ≠ ""))
  | .bool b => .ok b
  | .object o => .ok (!o.isEmpty)
  | .list l => .ok (!l.isEmpty)
  | .function id f => .ok ((ctx.get_func id f).isSome)
  | .nil => .ok false

/-- value.rs `Value::not`. -/
def Value.not (v : Value) (ctx : Ctx) : Except VimErr Value := do
  let b ← v.to_bool ctx
  .ok (.bool !b)

/-- `to_bool` against the current context. -/
def toBoolM (v : Value) : M Bool :=
  fun ctx =>
    match v.to_bool ctx with
    | .ok b => .ok b ctx
    | .error e => .error e ctx

/-- The unary operator table of expr.rs `parse` (stage 4): `-` and `!`. -/
def unaryOps (ctx : Ctx) : List (String × (Value → Except VimErr Value)) :=
  [("-", Value.neg), ("!", fun v => v.not ctx)]

/-- The `*`,`/` binary table of expr.rs `parse`. -/
def mulDivOps : List (String × (Value → Value → Except VimErr Value)) :=
  [("*", Value.mul), ("/", Value.div)]

/-- The `+`,`-` binary table of expr.rs `parse`. -/
def addSubOps : List (String × (Value → Value → Except VimErr Value)) :=
  [("+", Value.add), ("-", Value.sub)]

/-- The concatenation table of expr.rs `parse`. -/
def concatOps : List (String × (Value → Value → Except VimErr Value)) :=
  [(".", Value.concat)]

/-- The `>` entry of the comparison table of expr.rs `parse` (line 140):
`less` with the operands swapped. -/
def opGt (l r : Value) : Except VimErr Value :=
  Value.less r l

/-- The `<=` entry (expr.rs line 141): the negated swapped `less`. -/
def opLe (ctx : Ctx) (l r : Value) : Except VimErr Value := do
  let v ← Value.less r l
  v.not ctx

/-- The `>=` entry (expr.rs line 142): the negated direct `less`. -/
def opGe (ctx : Ctx) (l r : Value) : Except VimErr Value := do
  let v ← Value.less l r
  v.not ctx

/-- The `!=` entry (expr.rs line 144): negated structural equality. -/
def opNe (ctx : Ctx) (l r : Value) : Except VimErr Value := do
  let v ← Value.equal l r
  v.not ctx

/-- The relational/equality table of expr.rs `parse` (lines 136–146):
`<` is `Value::less`, `>` swaps the operands, `<=` and `>=` negate the
swapped and direct `less`, `==`/`!=` are structural equality and its
negation. -/
def cmpOps (ctx : Ctx) : List (String × (Value → Value → Except VimErr Value)) :=
  [("<", Value.less), (">", opGt), ("<=", opLe ctx), (">=", opGe ctx),
   ("==", Value.equal), ("!=", opNe ctx)]

/-- The unary pass against the current context. -/
def unaryPassM (ts : List ExprPeice) : M (Bool × List ExprPeice) :=
  fun ctx =>
    match unaryPass (unaryOps ctx) ts with
    | .ok r => .ok r ctx
    | .error e => .error e ctx

/-- The comparison pass against the current context. -/
def cmpPassM (ts : List ExprPeice) : M (Bool × List ExprPeice) :=
  fun ctx =>
    match binaryPass (cmpOps ctx) ts with
    | .ok r => .ok r ctx
    | .error e => .error e ctx

/-- lib.rs `VimScriptCtx::lookup`: a namespace `get` whose missing binding
is a `VariableUndefined` fault. -/
def lookupVar (name : String) : M Value :=
  fun ctx =>
    match ctx.vars.get name with
    | .error e => .error (.namespaceError e) ctx
    | .ok none => .error (.variableUndefined name) ctx
    | .ok (some v) => .ok v ctx

/-- `state.get_option(name)` against the current host. -/
def getOptM (name : String) : M Value :=
  fun ctx =>
    match ctx.host.getOpt name with
    | .ok v => .ok v ctx
    | .error e => .error e ctx

/-- lib.rs `VimScriptCtx::insert_var` (`variables.insert`, namespace faults
lifted into `VimErr`). -/
def insertVarM (name : String) (v : Value) : M Unit :=
  fun ctx =>
    match ctx.vars.insert name v with
    | .error e => .error (.namespaceError e) ctx
    | .ok (ns, _) => .ok () { ctx with vars := ns }

/-- `functions.insert` of the `function` keyword handler. -/
def insertFuncM (name : String) (fn : Func) : M Unit :=
  fun ctx =>
    match ctx.functions.insert name fn with
    | .error e => .error (.namespaceError e) ctx
    | .ok (ns, _) => .ok () { ctx with functions := ns }

/-- `self.commands.get(name)`. -/
def getCmdM (name : String) : M (Option Cmd) :=
  fun ctx => .ok (alGet ctx.commands name) ctx

/-- Stage 3 of expr.rs `parse` (lines 97–108): substitute every remaining
identifier by its namespace lookup, except one whose immediately preceding
token is the operator `&`, which routes to the host `get_option`; `last`
tracks the (post-substitution) previous token and starts as `Op("")`. -/
def substGo (last : ExprPeice) : List ExprPeice → M (List ExprPeice)
  | [] => pure []
  | t :: rest =>
    match t with
    | .var s => do
      let v ← if isOp last "&" then getOptM s else lookupVar s
      let rest₂ ← substGo (.value v) rest
      pure (.value v :: rest₂)
    | _ => do
      let rest₂ ← substGo t rest
      pure (t :: rest₂)

/-- Stage 3 wrapper. -/
def substStage (ts : List ExprPeice) : M (List ExprPeice) :=
  substGo (.op "") ts

mutual

/-- The insertion side of value.rs `Names::iter`, with the `for` keyword
handler callback (`variables.insert`) inlined.  Object destructuring
removes each taken key from its (shared, here locally threaded) map. -/
def namesIterIns : Names → Value → M Unit
  | .single name, v => insertVarM name v
  | .list ns, v =>
    (match v with
     | .list vals => namesIterInsList ns vals
     | _ => throwE (.expected "List"))
  | .object ns, v =>
    (match v with
     | .object vals => namesIterInsObj ns vals
     | _ => throwE (.expected "Object"))

/-- `names.iter().zip(vals)`: stops at the shorter side. -/
def namesIterInsList : List Names → List Value → M Unit
  | [], _ => pure ()
  | _ :: _, [] => pure ()
  | n :: ns, v :: vs => do
    namesIterIns n v
    namesIterInsList ns vs

/-- The object arm of `Names::iter`: each pattern key takes (and removes)
its binding, missing keys bind Nil. -/
def namesIterInsObj : List (String × Names) → List (String × Value) → M Unit
  | [], _ => pure ()
  | (idx, n) :: rest, vals => do
    namesIterIns n ((alRemove vals idx).2.getD .nil)
    namesIterInsObj rest (alRemove vals idx).1

end

/-- A crude rendering of `format!("Error: {e:?}")` texts sunk into `echo`
by the `call`/`echo` builtin commands; no claim inspects these strings. -/
def renderErr : VimErr → String
  | .unexpectedKeyword s => "UnexpectedKeyword(" ++ s ++ ")"
  | .unexpectedEof => "UnexpectedEof"
  | .exit => "Exit"
  | .rangeNotSupported => "RangeNotSupported"
  | .bangNotSupported => "BangNotSupported"
  | .expected s => "Expected(" ++ s ++ ")"
  | .namespaceError _ => "NamespaceError"
  | .valError _ => "ValError"
  | .variableUndefined s => "VariableUndefined(" ++ s ++ ")"
  | .functionUndefined s => "FunctionUndefined(" ++ s ++ ")"
  | .commandUndefined s => "CommandUndefined(" ++ s ++ ")"
  | .timeOut => "TimeOut"
  | .wrongArgCount n => "WrongArgCount(" ++ toString n ++ ")"
  | .expectedType _ => "ExpectedType"
  | .notABool => "NotABool"
  | .illegalArgument s => "IllegalArgument(" ++ s ++ ")"
  | .panicked s => "panicked: " ++ s

/-- The parameter-binding loop of value.rs `VimFunction::execute`:
`params.zip(args.chain(repeat(Nil)))`, inserted one by one. -/
def insertParamsM : List String → List Value → M Unit
  | [], _ => pure ()
  | p :: ps, vs => do
    insertVarM p (vs.headD .nil)
    insertParamsM ps vs.tail

/-- expr.rs `ExprPeice::fn_call`. -/
def fnName? (t : ExprPeice) : Option String :=
  match t with
  | .fnCall s => some s
  | .fnValueCall s => some s
  | _ => none

/-- The argument scan of the `function_calls` pass: walk values and commas
from position `t`; a closing `)` fixes the call end, anything else leaves
the call unapplied.  Reading one past the final token is the source
`tokens[t + 1]` index panic. -/
def fnArgsScan : Nat → List ExprPeice → Nat → Except VimErr (Option Nat)
  | 0, _, _ => .error (.panicked "scan fuel")
  | fu + 1, ts, t =>
    if t < ts.length then
      match ts.get? t with
      | some (.value _) =>
        (match ts.get? (t + 1) with
         | none => .error (.panicked "index out of bounds")
         | some t₂ =>
           if isOp t₂ "," then fnArgsScan fu ts (t + 2) else fnArgsScan fu ts (t + 1))
      | some t₁ => if isOp t₁ ")" then .ok (some (t + 1)) else .ok none
      | none => .ok none
    else .ok none

/-- `self.silence_level += 1; state.set_silent(self.silence_level > 0)`:
the entry half of the `silent` keyword handler. -/
def beforeSilent (c : Ctx) : Ctx :=
  let c₁ := { c with silence_level := c.silence_level + 1 }
  c₁.setSilentFlag (decide (0 < c₁.silence_level))

/-- `state.set_silent(self.silence_level > 0); self.silence_level -= 1`:
the exit half of the `silent` keyword handler (note the flag is refreshed
before the decrement, as in the source). -/
def afterSilent (c : Ctx) : Ctx :=
  let c₁ := c.setSilentFlag (decide (0 < c.silence_level))
  { c₁ with silence_level := c₁.silence_level - 1 }

/-- The body of the `silent` keyword handler of lib.rs `run_line`
(lines 407–416) once a nested line has been parsed, with `inner` standing
for the nested `run_line` call on it: increment the silence depth and set
the host flag, run the nested line, and on success only refresh the flag
and decrement the depth; a nested fault propagates with the incremented
depth still in place. -/
def silentNow (inner : Ctx → EStateM.Result VimErr Ctx (ReturnType × Tokenizer × RunTy))
    (run : RunTy) : M (ReturnType × Tokenizer × RunTy) :=
  fun ctx =>
    match inner (beforeSilent ctx) with
    | .ok (_, tok₂, _) c₂ => .ok (.cont, tok₂, run) (afterSilent c₂)
    | .error e c₂ => .error e c₂

/-- The body of the `unsilent` keyword handler of lib.rs `run_line`
(lines 417–424): silence the host flag (without touching the depth), run
the nested line, and on success restore the flag from the depth. -/
def unsilentNow (inner : Ctx → EStateM.Result VimErr Ctx (ReturnType × Tokenizer × RunTy))
    (run : RunTy) : M (ReturnType × Tokenizer × RunTy) :=
  fun ctx =>
    match inner (ctx.setSilentFlag false) with
    | .ok (_, tok₂, _) c₂ =>
      .ok (.cont, tok₂, run) (c₂.setSilentFlag (decide (0 < c₂.silence_level)))
    | .error e c₂ => .error e c₂

mutual

/-- lib.rs `VimScriptCtx::run_inner`: drive lines from the tokenizer
through `run_line` until a break/return or the stream ends; end of stream
is success only in the Script section.  The per-line wall-clock timeout
check is the fuel test. -/
def runInner : Nat → Tokenizer → Section → RunTy → M (Option Value × Tokenizer × RunTy)
  | 0, _, _, _ => throwE .timeOut
  | f + 1, tok, sec, run => fun ctx =>
    match Tokenizer.next tok with
    | .error e => .error e ctx
    | .ok (none, tok₂) =>
      if sec = Section.script then .ok (none, tok₂, run) ctx
      else .error .unexpectedEof ctx
    | .ok (some line, tok₂) =>
      match runLine f tok₂ line sec run ctx with
      | .error e c => .error e c
      | .ok (rt, tok₃, run₂) c =>
        match rt with
        | .brk => .ok (none, tok₃, run₂) c
        | .ret v => .ok (some v, tok₃, run₂) c
        | .cont => runInner f tok₃ sec run₂ c

/-- lib.rs `VimScriptCtx::run_line`: the per-keyword dispatch.  Faithful
quirks of the source kept here: `for`, `while`, `finish`, `exit` and
`return` act regardless of the run mode (they are not routed through
`RunTy::act`), and the `silent` handler increments the silence depth,
runs the nested line, and decrements only after a successful nested run. -/
def runLine : Nat → Tokenizer → Line → Section → RunTy → M (ReturnType × Tokenizer × RunTy)
  | 0, _, _, _, _ => throwE .timeOut
  | f + 1, tok, line, sec, run =>
    match line.command with
    | "if" =>
      (match run with
       | .skip => do
         let (_, tok₂, _) ← runInner f tok .ifS .skipEndIf
         pure (.cont, tok₂, run)
       | .skipEndIf => do
         let (_, tok₂, _) ← runInner f tok .ifS .skipEndIf
         pure (.cont, tok₂, run)
       | .function fn => pure (.cont, tok, .function (fn.push line))
       | .now => do
         let v ← evalExprM f line.params.toList
         let b ← toBoolM v
         if b then do
           let (_, tok₂, _) ← runInner f tok .ifS .now
           pure (.cont, tok₂, run)
         else do
           let (_, tok₂, _) ← runInner f tok .ifS .skip
           pure (.cont, tok₂, run))
    | "elseif" =>
      if sec = Section.ifS then
        match run with
        | .function fn => pure (.cont, tok, .function (fn.push line))
        | .skipEndIf => pure (.cont, tok, run)
        | .skip => do
          let v ← evalExprM f line.params.toList
          let b ← toBoolM v
          pure (.cont, tok, if b then RunTy.now else RunTy.skipEndIf)
        | .now => pure (.cont, tok, RunTy.skipEndIf)
      else throwE (.unexpectedKeyword "else")
    | "else" =>
      if sec = Section.ifS then
        match run with
        | .function fn => pure (.cont, tok, .function (fn.push line))
        | .skipEndIf => pure (.cont, tok, run)
        | .skip => pure (.cont, tok, RunTy.now)
        | .now => pure (.cont, tok, RunTy.skipEndIf)
      else throwE (.unexpectedKeyword "else")
    | "endif" =>
      if sec = Section.ifS then pure (.brk, tok, run)
      else throwE (.unexpectedKeyword "endif")
    | "for" => do
      let (names, expr₁) ← liftE (Names.parse f line.params.toList)
      let expr₂ ←
        match trimBoth expr₁ with
        | 'i' :: 'n' :: restE => pure restE
        | _ => throwE (.expected "in")
      let val ← evalExprM f expr₂
      forIterM f names val.intoIter tok
      let (_, tok₂, _) ← runInner f tok .forS .skip
      pure (.cont, tok₂, run)
    | "endfor" =>
      if sec = Section.forS then pure (.brk, tok, run)
      else throwE (.unexpectedKeyword "endfor")
    | "while" => do
      whileLoopM f line.params.toList tok
      let (_, tok₂, _) ← runInner f tok .whileS .skip
      pure (.cont, tok₂, run)
    | "endwhile" =>
      if sec = Section.whileS then pure (.brk, tok, run)
      else throwE (.unexpectedKeyword "endwhile")
    | "function" =>
      (match run with
       | .skip => pure (.cont, tok, run)
       | .skipEndIf => pure (.cont, tok, run)
       | .function fn => pure (.cont, tok, .function (fn.push line))
       | .now => do
         let (name, vf) ← liftE (parse_function line.params.toList)
         let (_, tok₂, run₂) ← runInner f tok .func (.function vf)
         match run₂ with
         | .function vf₂ => do
           insertFuncM name (.vimscript vf₂)
           pure (.cont, tok₂, run)
         | _ => throwE (.panicked "function capture lost"))
    | "endfunction" =>
      if sec = Section.func then pure (.brk, tok, run)
      else throwE (.unexpectedKeyword "endfunction")
    | "let" =>
      (match run with
       | .skip => pure (.cont, tok, run)
       | .skipEndIf => pure (.cont, tok, run)
       | .function fn => pure (.cont, tok, .function (fn.push line))
       | .now =>
         if line.range.is_some then throwE .rangeNotSupported
         else if line.bang then throwE .bangNotSupported
         else
           match splitOnceChar line.params.toList '=' with
           | some (name, valTxt) => do
             let v ← evalExprM f valTxt
             insertVarM (String.mk (trimBoth name)) v
             pure (.cont, tok, run)
           | none => throwE (.expected "="))
    | "silent" =>
      (match run with
       | .skip => pure (.cont, tok, run)
       | .skipEndIf => pure (.cont, tok, run)
       | .function fn => pure (.cont, tok, .function (fn.push line))
       | .now =>
         match Line.new line.params.toList with
         | .error e => throwE e
         | .ok none => pure (.cont, tok, run)
         | .ok (some nl) => silentNow (runLine f tok nl .script .now) run)
    | "unsilent" =>
      (match run with
       | .skip => pure (.cont, tok, run)
       | .skipEndIf => pure (.cont, tok, run)
       | .function fn => pure (.cont, tok, .function (fn.push line))
       | .now =>
         match Line.new line.params.toList with
         | .error e => throwE e
         | .ok none => pure (.cont, tok, run)
         | .ok (some nl) => unsilentNow (runLine f tok nl .script .now) run)
    | "execute" =>
      (match run with
       | .skip => pure (.cont, tok, run)
       | .skipEndIf => pure (.cont, tok, run)
       | .function fn => pure (.cont, tok, .function (fn.push line))
       | .now => do
         let v ← evalExprM f line.params.toList
         let _ ← runInner f (.script (Value.to_string v).toList) .script .now
         pure (.cont, tok, run))
    | "finish" => throwE .exit
    | "exit" => throwE .exit
    | "return" => do
      let v ← evalExprM f line.params.toList
      pure (.ret v, tok, run)
    | _ =>
      (match run with
       | .skip => pure (.cont, tok, run)
       | .skipEndIf => pure (.cont, tok, run)
       | .function fn => pure (.cont, tok, .function (fn.push line))
       | .now => do
         let c? ← getCmdM line.command
         match c? with
         | some c => do
           execCmdM f c line
           pure (.cont, tok, run)
         | none => throwE (.commandUndefined line.command))

/-- The per-iteration body of the `for` keyword handler: push a local
frame, destructure the loop variable, replay the body from a cloned
cursor, pop the frame — with every fault propagating before the pop. -/
def forIterM : Nat → Names → List Value → Tokenizer → M Unit
  | 0, _, _, _ => throwE .timeOut
  | f + 1, names, vs, tok =>
    match vs with
    | [] => pure ()
    | v :: rest => do
      modifyCtx (fun c => { c with vars := c.vars.enter_local })
      namesIterIns names v
      let _ ← runInner f tok .forS .now
      modifyCtx (fun c => { c with vars := c.vars.leave_local })
      forIterM f names rest tok

/-- The condition-and-replay loop of the `while` keyword handler. -/
def whileLoopM : Nat → List Char → Tokenizer → M Unit
  | 0, _, _ => throwE .timeOut
  | f + 1, cond, tok => do
    let v ← evalExprM f cond
    let b ← toBoolM v
    if b then do
      let _ ← runInner f tok .whileS .now
      whileLoopM f cond tok
    else pure ()

/-- lib.rs `VimScriptCtx::eval` / expr.rs `parse` stages 1–3 followed by
the stage-4 reduction loop. -/
def evalExprM : Nat → List Char → M Value
  | 0, _ => throwE .timeOut
  | f + 1, cs => do
    let ts ← liftE (tokenize (trimBoth cs))
    let ts := (function_call_extract ts).2
    let ts ← substStage ts
    reduceLoop f ts

/-- Stage 4 of expr.rs `parse`: repeat the passes in their fixed order
until one token remains; a full cycle with no progress is the source
`todo!()` panic, and an empty stream makes `remove(0)` panic. -/
def reduceLoop : Nat → List ExprPeice → M Value
  | 0, _ => throwE .timeOut
  | f + 1, ts =>
    if ts.length > 1 then do
      let (c₁, ts) := function_value_call_extract ts
      let (c₂, ts) ← fnCallsGo f 0 false ts
      let (c₃, ts) := listPass ts
      let (c₄, ts) ← liftE (listIndexPass ts)
      let (c₅, ts) := objPass ts
      let (c₆, ts) := parensPass ts
      let (c₇, ts) ← unaryPassM ts
      let (c₈, ts) ← liftE (binaryPass mulDivOps ts)
      let (c₉, ts) ← liftE (binaryPass addSubOps ts)
      let (c₁₀, ts) ← liftE (binaryPass concatOps ts)
      let (c₁₁, ts) ← cmpPassM ts
      if c₁ || c₂ || c₃ || c₄ || c₅ || c₆ || c₇ || c₈ || c₉ || c₁₀ || c₁₁ then
        reduceLoop f ts
      else throwE (.panicked "parse stuck")
    else
      match ts with
      | .value v :: _ => pure v
      | _ :: _ => throwE (.valError .invalidExpression)
      | [] => throwE (.panicked "remove from empty Vec")

/-- expr.rs `function_calls` pass: each pending call whose arguments are
comma-separated values up to a closing `)` collects them and invokes
`run_function`, splicing the result in. -/
def fnCallsGo : Nat → Nat → Bool → List ExprPeice → M (Bool × List ExprPeice)
  | 0, _, _, _ => throwE .timeOut
  | f + 1, i, ch, ts =>
    if i < ts.length then
      match fnName? (tokAt ts i) with
      | some name => do
        let e? ← liftE (fnArgsScan (ts.length + 2) ts (i + 1))
        match e? with
        | some e =>
          if i < e then do
            let seg := (ts.drop (i + 1)).take (e - (i + 1))
            let args := seg.filterMap (fun t => match t with | .value v => some v | _ => none)
            let r ← runFunction f name args
            fnCallsGo f (i + 1) true (ts.take i ++ ExprPeice.value r :: ts.drop e)
          else fnCallsGo f (i + 1) ch ts
        | none => fnCallsGo f (i + 1) ch ts
      | none => fnCallsGo f (i + 1) ch ts
    else pure (ch, ts)

/-- lib.rs `VimScriptCtx::run_function`: a vimscript function body runs
between `enter_local` and `leave_local`, and the pop happens whether the
body succeeded or faulted; builtins are host closures (see `Func`);
unknown names are `FunctionUndefined`. -/
def runFunction : Nat → String → List Value → M Value
  | 0, _, _ => throwE .timeOut
  | f + 1, name, args => fun ctx =>
    match ctx.get_func none name with
    | some (.vimscript vf) =>
      (match vimExecute f vf args { ctx with vars := ctx.vars.enter_local } with
       | .ok v c₂ => .ok v { c₂ with vars := c₂.vars.leave_local }
       | .error e c₂ => .error e { c₂ with vars := c₂.vars.leave_local })
    | some (.builtinF n) => .error (.panicked ("builtin function " ++ n ++ " not modelled")) ctx
    | none => .error (.functionUndefined name) ctx

/-- value.rs `VimFunction::execute`: bind the parameters (missing arguments
become Nil), then replay the captured body in the Function section; a
body that runs off its end without returning is `UnexpectedEof`. -/
def vimExecute : Nat → VimFunction → List Value → M Value
  | 0, _, _ => throwE .timeOut
  | f + 1, vf, args => do
    insertParamsM vf.params args
    let r ← runInner f (.iter vf.inner) .func .now
    pure (r.1.getD .nil)

/-- The `call` and `echo` builtin commands of builtin.rs (host-registered
commands are inert in this model): both evaluate their argument text and
sink the outcome into `echo`, swallowing faults. -/
def execCmdM : Nat → Cmd → Line → M Unit
  | 0, _, _ => throwE .timeOut
  | f + 1, c, line =>
    match c with
    | .callCmd => fun ctx =>
      (match evalExprM f line.params.toList ctx with
       | .ok _ c₂ => .ok () c₂
       | .error e c₂ => .ok () (c₂.echo ("Error: " ++ renderErr e)))
    | .echoCmd => fun ctx =>
      (match evalExprM f line.params.toList ctx with
       | .ok v c₂ => .ok () (c₂.echo (Value.display v))
       | .error e c₂ => .ok () (c₂.echo ("Error: " ++ renderErr e)))
    | .hostCmd => pure ()

end

/-- lib.rs `VimScriptCtx::run`: execute a whole script; the Exit sentinel
(and only it) is downgraded to success. -/
def run (fuel : Nat) (script : String) : M Unit :=
  fun ctx =>
    match runInner fuel (.script script.toList) .script .now ctx with
    | .ok _ c => .ok () c
    | .error e c =>
      match e with
      | .exit => .ok () c
      | _ => .error e c

/-- The builtin function names registered by
`VimScriptCtx::builtin_functions` (builtin.rs), in registration order
(`tolower` and `strlen` are registered twice there, the second write
winning). -/
def builtinFnNames : List String :=
  ["nr2char", "tolower", "tolower", "strlen", "strlen", "repeat", "eval", "exec",
   "trim", "float2nr", "abs", "round", "ceil", "floor", "trunc", "exp", "log",
   "log10", "pow", "sqrt", "sin", "cos", "tan", "asin", "acos", "atan", "atan2",
   "sinh", "cosh", "tanh", "and", "invert", "or", "xor", "assert_equal",
   "assert_notequal", "assert_false", "assert_true"]

/-- The function table after `builtin_functions`. -/
def initFunctions : NameSpaced Func :=
  builtinFnNames.foldl (fun ns n => ns.insert_builtin n (.builtinF n)) NameSpaced.init

/-- The variable table after `VimScriptCtx::init`: `v:true`, `v:false`,
`v:null` and the `VimType::ty_names` constants. -/
def initVariables : NameSpaced Value :=
  VimType.ty_names
    (((NameSpaced.init.insert_builtin "v:true" (.bool true)).insert_builtin
      "v:false" (.bool false)).insert_builtin "v:null" .nil)

/-- lib.rs `VimScriptCtx::init` (plus `builtin_commands`), over a host with
the given `get_option`. -/
def initCtx (getOpt : String → Except VimErr Value) : Ctx :=
  { commands := [("call", .callCmd), ("echo", .echoCmd)]
    functions := initFunctions
    vars := initVariables
    silence_level := 0
    host := { silentFlag := false, echoes := [], getOpt } }

/-- The test-harness host of lib.rs (`TestContext`): every option read
fails. -/
def testGetOpt : String → Except VimErr Value :=
  fun _ => .error (.variableUndefined "option")

/-- A freshly initialised context over the test host. -/
def ctx0 : Ctx := initCtx testGetOpt

/-- The fault of an interpreter outcome, if any. -/
def resultErr {α : Type} : EStateM.Result VimErr Ctx α → Option VimErr
  | .ok _ _ => none
  | .error e _ => some e

/-- The final context of an interpreter outcome. -/
def resultCtx {α : Type} : EStateM.Result VimErr Ctx α → Ctx
  | .ok _ c => c
  | .error _ c => c

/-- The operand pairings for which `Value::less` performs an actual
comparison (every other pairing falls to the default `false` arm). -/
def lessTypedPair : Value → Value → Bool
  | .integer _, .integer _ => true
  | .number _, .number _ => true
  | .str _, .str _ => true
  | _, _ => false

/-- The namespace reached from a fresh one by `set_window(0)`,
`set_buffer(0)` and an insert of `w:x ↦ 7`: the binding lands in the
`buffer` store keyed by the window id. -/
def c1ns : NameSpaced Nat :=
  { NameSpaced.init with
    buffer := [(0, [("w:x", 7)])], window_id := some 0, buffer_id := some 0 }

/-- The namespace reached from a fresh one by `set_buffer(1)` and an insert
of `b:y ↦ 5`. -/
def c1nsB : NameSpaced Nat :=
  { NameSpaced.init with buffer := [(1, [("b:y", 5)])], buffer_id := some 1 }

/-- A function whose body holds a `return` inside a `for` loop, then a
trailing `return`, followed by a call storing the result. -/
def c3script : String :=
  "function F()\nfor a in [1]\nreturn 5\nendfor\nreturn 9\nendfunction\nlet g:r = F()"

/-- A `silent` line whose nested line is an unknown command. -/
def c4failScript : String := "silent bogus"

/-- A `for` loop whose iteration body faults on an unknown command. -/
def c5leakScript : String := "for a in [1]\nbogus\nendfor"

/-- A `for` loop whose iteration succeeds. -/
def c5okScript : String := "for a in [1]\nlet g:x = a\nendfor"

/-- A top-level insertion into the Local scope (no sigil, lowercase). -/
def c9letScript : String := "let a = 1"

/-- A nested line for the silent handler that succeeds (`echo 1`). -/
def nlEcho : Line :=
  { range := .currentLine, command := "echo", bang := false, params := "1" }

/-- A nested line for the silent handler that faults (unknown command). -/
def nlBogus : Line :=
  { range := .currentLine, command := "bogus", bang := false, params := "" }

/-- The context after the successful nested `echo 1` run inside `silent`. -/
def c4okC : Ctx :=
  resultCtx (runLine 8 (.script []) nlEcho .script .now (beforeSilent ctx0))

/-- The context after the faulting nested `bogus` run inside `silent`. -/
def c4errC : Ctx :=
  resultCtx (runLine 8 (.script []) nlBogus .script .now (beforeSilent ctx0))

/-- A captured function with one (empty-named) parameter and an empty
body, as `function F()` records it. -/
def emptyVf : VimFunction := { params := [""], inner := [] }

/-- `ctx0` with `F` bound to `emptyVf` in the function namespace. -/
def ctxF : Ctx :=
  match ctx0.functions.insert "F" (.vimscript emptyVf) with
  | .ok (ns, _) => { ctx0 with functions := ns }
  | .error _ => ctx0

/-- The context reached by running `F`'s body from `ctxF` with the local
frame already pushed (the body replay ends in `UnexpectedEof`). -/
def c5bodyC : Ctx :=
  resultCtx (vimExecute 8 emptyVf [] { ctxF with vars := ctxF.vars.enter_local })

/-- `Value.beqList` is pairwise `Value.beq` (helper for claim C10). -/
theorem beqList_iff_forall₂ (xs ys : List Value) :
    Value.beqList xs ys = true ↔ List.Forall₂ (fun a b => Value.beq a b = true) xs ys := by
  induction xs generalizing ys with
  | nil => cases ys <;> simp [Value.beqList]
  | cons a as ih => cases ys <;> simp [Value.beqList, ih]

/-- C1: for Buffer the claim holds, but the source cross-wires Window and
Script: lookup of `w:x`/`s:x` consults `buffer_id` (and reports a Buffer
fault) even when the window/script id is set, and insertion of `w:x` with
the window id set succeeds but lands in the `buffer` store, so a subsequent
lookup cannot see it. -/
theorem c1_window_script_wiring_bug :
    ((NameSpaced.init : NameSpaced Nat).set_window (some 0)).get "w:x"
        = .error (.namespaceNotDefined .buffer)
    ∧ ((NameSpaced.init : NameSpaced Nat).set_script (some 0)).get "s:x"
        = .error (.namespaceNotDefined .buffer)
    ∧ (((NameSpaced.init : NameSpaced Nat).set_window (some 0)).set_buffer (some 0)).insert
        "w:x" 7 = .ok (c1ns, none)
    ∧ c1ns.get "w:x" = .ok none
    ∧ c1ns.buffer = [(0, [("w:x", 7)])]
    ∧ c1ns.window = []
    ∧ ((NameSpaced.init : NameSpaced Nat).set_buffer (some 1)).insert "b:y" 5
        = .ok (c1nsB, none)
    ∧ c1nsB.get "b:y" = .ok (some 5) := by
  exact ⟨rfl, rfl, rfl, rfl, rfl, rfl, rfl, rfl⟩

/-- C2: indexing is total on List/Str/Object and out-of-range yields Nil,
but the negative-index arm reads `rev().nth((1 - idx) as usize)` instead of
`(-1 - idx)`, so index `-1` selects the third element from the end (and the
last element is unreachable): `["a","b","c","d"][-1]` is `"b"`, and
`["a"][-1]` is Nil instead of `"a"`; the same slip applies to strings. -/
theorem c2_negative_index_bug :
    Value.index (.list [.str "a", .str "b", .str "c", .str "d"]) (.integer (-1))
        = .ok (.str "b")
    ∧ Value.index (.list [.str "a"]) (.integer (-1)) = .ok .nil
    ∧ Value.index (.str "abcd") (.integer (-1)) = .ok (.str "b")
    ∧ Value.index (.list [.str "a", .str "b"]) (.integer 10) = .ok .nil
    ∧ Value.index (.list [.str "a", .str "b"]) (.integer 1) = .ok (.str "b")
    ∧ Value.index (.object [("k", .integer 3)]) (.str "missing") = .ok .nil
    ∧ Value.index (.object [("k", .integer 3)]) (.str "k") = .ok (.integer 3) := by
  exact ⟨rfl, rfl, rfl, rfl, rfl, rfl, rfl⟩

/-- C7: the stage-3 `&`-routing to the host `get_option` is dead code: the
stage-1 scanner has no `&` in its operator set and faults with
`UnexpectedSymbol`, so `&opt` never evaluates to a host option; a plain
identifier does tokenize and is substituted via namespace lookup, and the
routing branch itself would reach `get_option` only on a hand-built `&`
operator token. -/
theorem c7_option_sigil_unreachable :
    tokenize "&opt".toList = .error (.valError .unexpectedSymbol)
    ∧ resultErr (evalExprM 32 "&opt".toList ctx0) = some (.valError .unexpectedSymbol)
    ∧ tokenize "opt".toList = .ok [.var "opt"]
    ∧ substStage [.var "v:true"] ctx0 = .ok [.value (.bool true)] ctx0
    ∧ substStage [.op "&", .var "x"] ctx0 = .error (.variableUndefined "option") ctx0 := by
  exact ⟨rfl, rfl, rfl, rfl, rfl⟩

/-- C8: `<` compares only (Integer,Integer), (Number,Number), (Str,Str);
every other pairing is `false` and never a fault; `>`, `<=`, `>=` are the
operand-swapped (and negated) forms of `<` from the expr.rs table, so
`1 <= 1` is true and a cross-type `<` or `>` such as Integer vs Str is
false. -/
theorem c8_less_weak_typing :
    (∀ a b : Int, Value.less (.integer a) (.integer b) = .ok (.bool (decide (a < b))))
    ∧ (∀ a b : Rat, Value.less (.number a) (.number b) = .ok (.bool (decide (a < b))))
    ∧ (∀ a b : String, Value.less (.str a) (.str b) = .ok (.bool (decide (a < b))))
    ∧ (∀ v w : Value, lessTypedPair v w = false → Value.less v w = .ok (.bool false))
    ∧ (∀ v w : Value, ∃ b : Bool, Value.less v w = .ok (.bool b))
    ∧ (∀ v w : Value, opGt v w = Value.less w v)
    ∧ (∀ (ctx : Ctx) (a b : Int),
        opLe ctx (.integer a) (.integer b) = .ok (.bool (decide (a ≤ b))))
    ∧ (∀ (ctx : Ctx) (a b : Int),
        opGe ctx (.integer a) (.integer b) = .ok (.bool (decide (b ≤ a))))
    ∧ (∀ ctx : Ctx, opLe ctx (.integer 1) (.integer 1) = .ok (.bool true))
    ∧ Value.less (.integer 1) (.str "x") = .ok (.bool false)
    ∧ opGt (.integer 1) (.str "x") = .ok (.bool false) := by
  refine ⟨fun a b => rfl, fun a b => rfl, fun a b => rfl, ?_, ?_, fun v w => rfl,
    ?_, ?_, fun ctx => rfl, rfl, rfl⟩
  · intro v w h
    cases v <;> cases w <;> simp_all [lessTypedPair, Value.less]
  · intro v w
    cases v <;> cases w <;> exact ⟨_, rfl⟩
  · intro ctx a b
    show (do
      let v ← Value.less (.integer b) (.integer a)
      v.not ctx) = .ok (.bool (decide (a ≤ b)))
    have : Value.less (.integer b) (.integer a) = .ok (.bool (decide (b < a))) := rfl
    rw [this]
    have hd : decide (a ≤ b) = !decide (b < a) := by
      rw [decide_eq_decide.mpr Int.not_lt.symm, decide_not]
    rw [hd]
    rfl
  · intro ctx a b
    show (do
      let v ← Value.less (.integer a) (.integer b)
      v.not ctx) = .ok (.bool (decide (b ≤ a)))
    have : Value.less (.integer a) (.integer b) = .ok (.bool (decide (a < b))) := rfl
    rw [this]
    have hd : decide (b ≤ a) = !decide (a < b) := by
      rw [decide_eq_decide.mpr Int.not_lt.symm, decide_not]
    rw [hd]
    rfl

/-- C8 witness: the theorem applied at concrete operands — the default
pairing `Bool < Nil`, `1 < 2`, and `1 <= 1`. -/
theorem c8_less_weak_typing_witness :
    Value.less (.bool true) .nil = .ok (.bool false)
    ∧ Value.less (.integer 1) (.integer 2) = .ok (.bool true)
    ∧ opLe ctx0 (.integer 1) (.integer 1) = .ok (.bool true) := by
  refine ⟨c8_less_weak_typing.2.2.2.1 (.bool true) .nil (by rfl), ?_, ?_⟩
  · have h := c8_less_weak_typing.1 1 2
    simpa using h
  · exact c8_less_weak_typing.2.2.2.2.2.2.2.2.1 ctx0

/-- C9: resolving a no-sigil lowercase name targets the Local scope; with
an empty local-frame stack an insertion fails with
`NamespaceNotDefined(Local)` (the namespace is left unchanged, and at the
interpreter level a top-level `let a = 1` surfaces exactly that fault and
stores nothing), while a lookup still succeeds by falling through to the
builtin table. -/
theorem c9_local_insert_empty_stack :
    (∀ (T : Type) (ns : NameSpaced T) (name : String) (v : T),
      Namespace.from_name name = .ok .localNs → ns.locals = [] →
        ns.insert name v = .error (.namespaceNotDefined .localNs)
        ∧ ns.get name = .ok (alGet ns.builtin name))
    ∧ resultErr (run 8 c9letScript ctx0)
        = some (.namespaceError (.namespaceNotDefined .localNs))
    ∧ alGet (resultCtx (run 8 c9letScript ctx0)).vars.global "a" = none
    ∧ (resultCtx (run 8 c9letScript ctx0)).vars.locals = [] := by
  refine ⟨?_, rfl, rfl, rfl⟩
  intro T ns name v h hloc
  constructor
  · unfold NameSpaced.insert
    rw [h, hloc]
  · unfold NameSpaced.get
    rw [h, hloc]
    rfl

/-- C9 witness: the theorem applied at the name `a` over a namespace whose
builtin table binds `a ↦ 42` and whose local stack is empty. -/
theorem c9_local_insert_empty_stack_witness :
    ((NameSpaced.init : NameSpaced Nat).insert_builtin "a" 42).insert "a" 7
        = .error (.namespaceNotDefined .localNs)
    ∧ ((NameSpaced.init : NameSpaced Nat).insert_builtin "a" 42).get "a"
        = .ok (alGet ((NameSpaced.init : NameSpaced Nat).insert_builtin "a" 42).builtin "a")
    ∧ alGet ((NameSpaced.init : NameSpaced Nat).insert_builtin "a" 42).builtin "a"
        = some 42 := by
  refine ⟨?_, ?_, rfl⟩
  · exact (c9_local_insert_empty_stack.1 Nat _ "a" 7 rfl rfl).1
  · exact (c9_local_insert_empty_stack.1 Nat _ "a" 7 rfl rfl).2

/-- C10: `==`/`equal` compare List and Object contents recursively (two
independently constructed lists compare equal exactly when they are
pairwise equal; objects compare equal irrespective of entry order), and
values of different variants always compare unequal. -/
theorem c10_structural_value_equality :
    (∀ v w : Value, Value.equal v w = .ok (.bool (Value.beq v w)))
    ∧ (∀ xs ys : List Value,
        Value.beq (.list xs) (.list ys) = true
          ↔ List.Forall₂ (fun a b => Value.beq a b = true) xs ys)
    ∧ (∀ v w : Value, v.ty ≠ w.ty → Value.beq v w = false)
    ∧ Value.beq (.list [.list [.integer 1], .str "x"]) (.list [.list [.integer 1], .str "x"])
        = true
    ∧ Value.beq (.object [("a", .integer 1), ("b", .list [.str "x"])])
        (.object [("b", .list [.str "x"]), ("a", .integer 1)]) = true := by
  refine ⟨fun v w => rfl, ?_, ?_, rfl, rfl⟩
  · intro xs ys
    show Value.beqList xs ys = true ↔ _
    exact beqList_iff_forall₂ xs ys
  · intro v w h
    cases v <;> cases w <;> simp_all [Value.ty, Value.beq]

/-- C10 witness: the theorem applied at concrete values — different
variants (Integer vs Nil) are unequal, and `equal` wraps `beq`. -/
theorem c10_structural_value_equality_witness :
    Value.beq (.integer 0) .nil = false
    ∧ Value.equal (.integer 3) (.integer 3) = .ok (.bool true) := by
  constructor
  · exact c10_structural_value_equality.2.2.1 (.integer 0) .nil (by decide)
  · rw [c10_structural_value_equality.1]
    rfl

/-- C6: `run` downgrades exactly the Exit sentinel to success — an inner
success stays a success, an inner `Exit` fault becomes `Ok`, any other
fault is returned unchanged — and the `finish`/`exit` keywords raise Exit
(whatever the section and run mode), leaving the context untouched. -/
theorem c6_exit_only_downgrade :
    (∀ (fuel : Nat) (s : String) (ctx : Ctx)
        (v : Option Value × Tokenizer × RunTy) (c : Ctx),
      runInner fuel (.script s.toList) .script .now ctx = .ok v c →
        run fuel s ctx = .ok () c)
    ∧ (∀ (fuel : Nat) (s : String) (ctx c : Ctx),
      runInner fuel (.script s.toList) .script .now ctx = .error .exit c →
        run fuel s ctx = .ok () c)
    ∧ (∀ (fuel : Nat) (s : String) (ctx : Ctx) (e : VimErr) (c : Ctx),
      runInner fuel (.script s.toList) .script .now ctx = .error e c → e ≠ .exit →
        run fuel s ctx = .error e c)
    ∧ (∀ (f : Nat) (tok : Tokenizer) (l : Line) (sec : Section) (run₀ : RunTy) (ctx : Ctx),
      l.command = "finish" ∨ l.command = "exit" →
        runLine (f + 1) tok l sec run₀ ctx = .error .exit ctx) := by
  refine ⟨?_, ?_, ?_, ?_⟩
  · intro fuel s ctx v c h
    simp only [run]
    rw [h]
  · intro fuel s ctx c h
    simp only [run]
    rw [h]
  · intro fuel s ctx e c h hne
    simp only [run]
    rw [h]
    cases e <;> simp_all
  · intro f tok l sec run₀ ctx h
    obtain ⟨r, cmd, bg, ps⟩ := l
    rcases h with h | h <;> (simp only at h; subst h) <;> rfl

/-- C6 witness: the theorem applied to concrete scripts — `exit` raises the
sentinel and `run` still succeeds; a genuine fault (`let` with no `=`)
passes through. -/
theorem c6_exit_only_downgrade_witness :
    run 8 "exit" ctx0 = .ok () ctx0
    ∧ run 8 "let" ctx0 = .error (.expected "=") ctx0 := by
  constructor
  · exact c6_exit_only_downgrade.2.1 8 "exit" ctx0 ctx0 rfl
  · exact c6_exit_only_downgrade.2.2.1 8 "let" ctx0 (.expected "=") ctx0 rfl (by decide)

/-- C4 counterexample: `silent bogus` faults in the nested line and leaves
the silence depth at 1, one above its prior value 0 — the claimed
restore-on-error does not happen. -/
theorem c4_silence_leak_counterexample :
    ctx0.silence_level = 0
    ∧ resultErr (run 64 c4failScript ctx0) = some (.commandUndefined "bogus")
    ∧ (resultCtx (run 64 c4failScript ctx0)).silence_level = 1 :=
  ⟨rfl, rfl, rfl⟩

/-- C4 amended: `silent` increments the silence depth, runs its trailing
text as one nested line, and decrements the counter only when the nested
line succeeds; a nested fault propagates with the counter still
incremented (no scoped release). -/
theorem c4_silent_restores_only_on_success :
    (∀ ctx : Ctx, (beforeSilent ctx).silence_level = ctx.silence_level + 1)
    ∧ (∀ (inner : Ctx → EStateM.Result VimErr Ctx (ReturnType × Tokenizer × RunTy))
        (run₀ : RunTy) (ctx : Ctx) (rt : ReturnType) (tok₂ : Tokenizer)
        (run₂ : RunTy) (c₂ : Ctx),
      inner (beforeSilent ctx) = .ok (rt, tok₂, run₂) c₂ →
        silentNow inner run₀ ctx = .ok (.cont, tok₂, run₀) (afterSilent c₂)
        ∧ (afterSilent c₂).silence_level = c₂.silence_level - 1)
    ∧ (∀ (inner : Ctx → EStateM.Result VimErr Ctx (ReturnType × Tokenizer × RunTy))
        (run₀ : RunTy) (ctx : Ctx) (e : VimErr) (c₂ : Ctx),
      inner (beforeSilent ctx) = .error e c₂ →
        silentNow inner run₀ ctx = .error e c₂)
    ∧ (∀ (f : Nat) (tok : Tokenizer) (l : Line) (sec : Section) (ctx : Ctx) (nl : Line),
      l.command = "silent" → Line.new l.params.toList = .ok (some nl) →
        runLine (f + 1) tok l sec .now ctx
          = silentNow (runLine f tok nl .script .now) .now ctx) := by
  refine ⟨fun ctx => rfl, ?_, ?_, ?_⟩
  · intro inner run₀ ctx rt tok₂ run₂ c₂ h
    simp only [silentNow]
    rw [h]
    exact ⟨rfl, rfl⟩
  · intro inner run₀ ctx e c₂ h
    simp only [silentNow]
    rw [h]
  · intro f tok l sec ctx nl hcmd hline
    obtain ⟨r, cmd, bg, ps⟩ := l
    simp only at hcmd
    subst hcmd
    show ((match Line.new ps.toList with
      | .error e => throwE e
      | .ok none => pure (.cont, tok, RunTy.now)
      | .ok (some nl₂) => silentNow (runLine f tok nl₂ .script .now) RunTy.now :
        M (ReturnType × Tokenizer × RunTy)) ctx)
      = silentNow (runLine f tok nl .script .now) RunTy.now ctx
    rw [hline]

/-- C4 amended witness: the silent handler applied to a succeeding nested
line (`echo 1`, depth restored to 0) and to a faulting one (`bogus`, depth
left at 1). -/
theorem c4_silent_restores_only_on_success_witness :
    silentNow (runLine 8 (.script []) nlEcho .script .now) .now ctx0
        = .ok (.cont, .script [], .now) (afterSilent c4okC)
    ∧ (afterSilent c4okC).silence_level = 0
    ∧ silentNow (runLine 8 (.script []) nlBogus .script .now) .now ctx0
        = .error (.commandUndefined "bogus") c4errC
    ∧ c4errC.silence_level = 1 := by
  refine ⟨?_, rfl, ?_, rfl⟩
  · exact (c4_silent_restores_only_on_success.2.1
      (runLine 8 (Tokenizer.script []) nlEcho Section.script RunTy.now) RunTy.now ctx0
      ReturnType.cont (Tokenizer.script []) RunTy.now c4okC rfl).1
  · exact c4_silent_restores_only_on_success.2.2.1
      (runLine 8 (Tokenizer.script []) nlBogus Section.script RunTy.now) RunTy.now ctx0
      (VimErr.commandUndefined "bogus") c4errC rfl

/-- C5 counterexample: a `for` iteration whose body faults leaks its local
frame — the run starts with an empty frame stack and ends, with the fault,
at depth 1. -/
theorem c5_for_frame_leak_counterexample :
    ctx0.vars.locals = []
    ∧ resultErr (run 64 c5leakScript ctx0) = some (.commandUndefined "bogus")
    ∧ (resultCtx (run 64 c5leakScript ctx0)).vars.locals.length = 1 :=
  ⟨rfl, rfl, rfl⟩

/-- C5 amended: frame push/pop is LIFO (`leave_local ∘ enter_local` is the
identity); `run_function` pops the frame it pushed whether the body
succeeded or faulted; a successful `for` iteration restores the frame
stack — but a faulting iteration leaks its frame (see the
counterexample). -/
theorem c5_frames_lifo_amended :
    (∀ (T : Type) (ns : NameSpaced T), ns.enter_local.leave_local = ns)
    ∧ (∀ (f : Nat) (name : String) (args : List Value) (ctx : Ctx) (vf : VimFunction)
        (v : Value) (c₂ : Ctx),
      ctx.get_func none name = some (.vimscript vf) →
      vimExecute f vf args { ctx with vars := ctx.vars.enter_local } = .ok v c₂ →
        runFunction (f + 1) name args ctx = .ok v { c₂ with vars := c₂.vars.leave_local })
    ∧ (∀ (f : Nat) (name : String) (args : List Value) (ctx : Ctx) (vf : VimFunction)
        (e : VimErr) (c₂ : Ctx),
      ctx.get_func none name = some (.vimscript vf) →
      vimExecute f vf args { ctx with vars := ctx.vars.enter_local } = .error e c₂ →
        runFunction (f + 1) name args ctx = .error e { c₂ with vars := c₂.vars.leave_local })
    ∧ resultErr (run 64 c5okScript ctx0) = none
    ∧ (resultCtx (run 64 c5okScript ctx0)).vars.locals = [] := by
  refine ⟨fun T ns => rfl, ?_, ?_, rfl, rfl⟩
  · intro f name args ctx vf v c₂ hget hexec
    simp only [runFunction, hget, hexec]
  · intro f name args ctx vf e c₂ hget hexec
    simp only [runFunction, hget, hexec]

/-- C5 amended witness: calling the captured `F` from `ctxF` — the body
replay faults with `UnexpectedEof`, and `run_function` still pops the
frame it pushed, returning the stack to its prior empty state. -/
theorem c5_frames_lifo_amended_witness :
    vimExecute 8 emptyVf [] { ctxF with vars := ctxF.vars.enter_local }
        = .error .unexpectedEof c5bodyC
    ∧ runFunction 9 "F" [] ctxF
        = .error .unexpectedEof { c5bodyC with vars := c5bodyC.vars.leave_local }
    ∧ { c5bodyC with vars := c5bodyC.vars.leave_local }.vars.locals = []
    ∧ ctxF.vars.locals = [] := by
  refine ⟨rfl, ?_, rfl, rfl⟩
  · exact c5_frames_lifo_amended.2.2.1 8 "F" [] ctxF emptyVf .unexpectedEof c5bodyC rfl rfl

/-- C3: a `return` inside a loop never becomes the function result.  The
`return` arm ignores the capture run mode, so during recording of `F` the
`for` loop executes immediately, the `return 5` inside it is evaluated and
its value discarded by the loop layers, the skip walk consumes `return 5`
and stops early, and the recording then fails on `endfor`; `g:r` is never
set and `F` is never defined.  A function of just `return 5` likewise
executes the return during recording (recording nothing) and fails on
`endfunction`. -/
theorem c3_return_in_function_swallowed :
    resultErr (run 64 c3script ctx0) = some (.unexpectedKeyword "endfor")
    ∧ alGet (resultCtx (run 64 c3script ctx0)).vars.global "g:r" = none
    ∧ (resultCtx (run 64 c3script ctx0)).functions.get "F" = .ok none
    ∧ resultErr (run 64 "function F()\nreturn 5\nendfunction" ctx0)
        = some (.unexpectedKeyword "endfunction")
    ∧ (resultCtx (run 64 "function F()\nreturn 5\nendfunction" ctx0)).functions.get "F"
        = .ok (some (.vimscript { params := [""], inner := [] })) :=
  ⟨rfl, rfl, rfl, rfl, rfl⟩

end VimLean
